import Mathlib

/-!
# goip: query orchestration, expiring cache and address classification

A shallow embedding of the Go packages `internal/ipquery`, `internal/service`,
`pkg/errors` and of the HTTP handlers of `internal/handler`, followed by the properties
proved about them.

Conventions of the embedding

* Go strings are Lean `String`s, processed through their character list.
* `time.Time` and `time.Duration` are integers (nanoseconds); every place where the
  Go code reads `time.Now()` becomes an explicit time argument.
* `float64` values are never computed with on the paths studied here; they are carried
  as opaque data (`Float64`), with `0` standing for the Go constant `0`.
* A Go `map[string]*CacheItem` is a finite map with unique keys (`AList`).
* The functions of Go's standard library that the repository calls (`strings.TrimSpace`,
  `net.ParseIP`, `net.ParseCIDR`, `(*net.IPNet).Contains`) are transcribed from the
  standard library's sources in the first section.
-/

namespace Goip

/-! ## Standard library functions used by `internal/ipquery/ipinfo.go` -/

/-- Go `unicode.IsSpace`: the white space characters of the Latin-1 range and the
Unicode `White_Space` code points above it. -/
def isSpace (c : Char) : Bool :=
  let n := c.toNat
  n = 0x09 || n = 0x0A || n = 0x0B || n = 0x0C || n = 0x0D || n = 0x20 ||
  n = 0x85 || n = 0xA0 || n = 0x1680 || (0x2000 ≤ n && n ≤ 0x200A) ||
  n = 0x2028 || n = 0x2029 || n = 0x202F || n = 0x205F || n = 0x3000

/-- Go `strings.TrimSpace`, on the character list of the string. -/
def TrimSpace (s : List Char) : List Char :=
  ((s.dropWhile isSpace).reverse.dropWhile isSpace).reverse

/-- Value of a decimal digit character, if it is one. -/
def decVal (c : Char) : Option Nat :=
  if 48 ≤ c.toNat ∧ c.toNat ≤ 57 then some (c.toNat - 48) else none

/-- Value of a hexadecimal digit character (either case), if it is one. -/
def hexVal (c : Char) : Option Nat :=
  let n := c.toNat
  if 48 ≤ n ∧ n ≤ 57 then some (n - 48)
  else if 97 ≤ n ∧ n ≤ 102 then some (n - 97 + 10)
  else if 65 ≤ n ∧ n ≤ 70 then some (n - 65 + 10)
  else none

/-- Go `netip.parseIPv4Fields`: the loop over the characters of a dotted quad.
`prev` is the previous character (`none` at index 0), `fields` holds the octets
stored so far (`fields[pos] = val` appends, since `pos = fields.length`). -/
def parseIPv4Loop : List Char → Option Char → Nat → Nat → Nat → List Nat → Option (List Nat)
  | [], _, val, pos, _, fields =>
      if pos < 3 then none else some (fields ++ [val])
  | c :: rest, prev, val, pos, digLen, fields =>
      match decVal c with
      | some d =>
          if digLen = 1 ∧ val = 0 then none
          else if val * 10 + d > 255 then none
          else parseIPv4Loop rest (some c) (val * 10 + d) pos (digLen + 1) fields
      | none =>
          if c = '.' then
            if prev = none ∨ rest = [] ∨ prev = some '.' then none
            else if pos = 3 then none
            else parseIPv4Loop rest (some c) 0 (pos + 1) 0 (fields ++ [val])
          else none

/-- Go `netip.parseIPv4Fields` on a whole string: the four octets, or `none`. -/
def parseIPv4Fields (s : List Char) : Option (List Nat) :=
  parseIPv4Loop s none 0 0 0 []

/-- The hexadecimal group scan of `netip.parseIPv6`: consumes hex digits, failing on a
fifth digit or a value above `0xFFFF`; returns the digit count, the value and the rest. -/
def scanHex : List Char → Nat → Nat → Option (Nat × Nat × List Char)
  | [], off, acc => some (off, acc, [])
  | c :: rest, off, acc =>
      match hexVal c with
      | none => some (off, acc, c :: rest)
      | some v =>
          if off > 3 then none
          else if acc * 16 + v > 65535 then none
          else scanHex rest (off + 1) (acc * 16 + v)

/-- The main loop of `netip.parseIPv6` (`for i < 16`). `ip` holds the bytes written so
far, so the Go index `i` is `ip.length`; `ellipsis` is the position of `::` if seen.
Returns the unread rest of the string, the bytes and the ellipsis at loop exit.
Every iteration that does not leave the loop adds two bytes, so eight rounds of fuel
reach `i = 16`. -/
def parseIPv6Loop : Nat → List Char → List Nat → Option Nat →
    Option (List Char × List Nat × Option Nat)
  | 0, s, ip, ellipsis => some (s, ip, ellipsis)
  | fuel + 1, s, ip, ellipsis =>
      if ip.length < 16 then
        match scanHex s 0 0 with
        | none => none
        | some (off, acc, rest) =>
            if off = 0 then none
            else if rest.head? = some '.' then
              -- trailing embedded IPv4
              if ellipsis = none ∧ ip.length ≠ 12 then none
              else if ip.length + 4 > 16 then none
              else
                match parseIPv4Fields s with
                | none => none
                | some v4 => some ([], ip ++ v4, ellipsis)
            else
              let ip := ip ++ [acc / 256, acc % 256]
              match rest with
              | [] => some ([], ip, ellipsis)
              | c :: rest1 =>
                  if c ≠ ':' then none
                  else
                    match rest1 with
                    | [] => none
                    | c1 :: rest2 =>
                        if c1 = ':' then
                          if ellipsis.isSome then none
                          else
                            match rest2 with
                            | [] => some ([], ip, some ip.length)
                            | _ :: _ => parseIPv6Loop fuel rest2 ip (some ip.length)
                        else parseIPv6Loop fuel (c1 :: rest2) ip ellipsis
      else some (s, ip, ellipsis)

/-- Parsed address of Go's `netip.Addr`: a 4-byte IPv4 address, or a 16-byte IPv6
address with its zone. -/
inductive Addr where
  | v4 (b : List Nat)
  | v6 (b : List Nat) (zone : List Char)
  deriving DecidableEq, Repr

/-- The end of Go `netip.parseIPv6`, after the loop: the whole string must have been
used, and a short address is completed by expanding the ellipsis with zero bytes. -/
def expandEllipsis (zone : List Char) :
    Option (List Char × List Nat × Option Nat) → Option Addr
  | none => none
  | some (rest, ip, ellipsis) =>
      if rest ≠ [] then none
      else if ip.length < 16 then
        match ellipsis with
        | none => none
        | some e =>
            some (Addr.v6 (ip.take e ++ List.replicate (16 - ip.length) 0 ++ ip.drop e) zone)
      else if ellipsis.isSome then none
      else some (Addr.v6 ip zone)

/-- Go `netip.parseIPv6`: the zone is split off at the first `%`, a leading `::` is
consumed, then the groups are read and the ellipsis expanded. -/
def parseIPv6 (input : List Char) : Option Addr :=
  let s := input.takeWhile (fun c => c ≠ '%')
  let zone := (input.dropWhile (fun c => c ≠ '%')).drop 1
  if input.contains '%' ∧ zone = [] then none
  else
    match s with
    | c0 :: c1 :: s1 =>
        if c0 = ':' ∧ c1 = ':' then
          if s1 = [] then some (Addr.v6 (List.replicate 16 0) zone)
          else expandEllipsis zone (parseIPv6Loop 8 s1 [] (some 0))
        else expandEllipsis zone (parseIPv6Loop 8 s [] none)
    | _ => expandEllipsis zone (parseIPv6Loop 8 s [] none)

/-- Go `netip.ParseAddr`: dispatch on the first of the characters `.`, `:`, `%`. -/
def ParseAddr (s : List Char) : Option Addr :=
  match s.find? (fun c => c = '.' ∨ c = ':' ∨ c = '%') with
  | some c =>
      if c = '.' then (parseIPv4Fields s).map Addr.v4
      else if c = ':' then parseIPv6 s
      else none
  | none => none

/-- Go `netip.Addr.Zone`. -/
def Addr.Zone : Addr → List Char
  | .v4 _ => []
  | .v6 _ zone => zone

/-- Go `netip.Addr.BitLen`. -/
def Addr.BitLen : Addr → Nat
  | .v4 _ => 32
  | .v6 _ _ => 128

/-- The 12-byte prefix of an IPv4-mapped IPv6 address (`v4InV6Prefix`). -/
def v4InV6Prefix : List Nat := [0, 0, 0, 0, 0, 0, 0, 0, 0, 0, 0xff, 0xff]

/-- Go `netip.Addr.As16`: IPv4 addresses are returned in IPv4-mapped form. -/
def Addr.As16 : Addr → List Nat
  | .v4 b => v4InV6Prefix ++ b
  | .v6 b _ => b

/-- Go `net.ParseIP`: the 16-byte form of the address, `none` for Go's `nil`. -/
def ParseIP (s : List Char) : Option (List Nat) :=
  match ParseAddr s with
  | some a => if a.Zone ≠ [] then none else some a.As16
  | none => none

/-- Go `net.IP.To4`: the 4-byte form of an IPv4 (or IPv4-mapped) address. -/
def To4 (ip : List Nat) : Option (List Nat) :=
  if ip.length = 4 then some ip
  else if ip.length = 16 ∧ ip.take 12 = v4InV6Prefix then some (ip.drop 12)
  else none

/-- One byte of Go `net.CIDRMask`: byte number `i` of a mask with `ones` leading ones. -/
def maskByte (ones i : Nat) : Nat :=
  if 8 * (i + 1) ≤ ones then 0xff
  else if ones ≤ 8 * i then 0
  else 0xff - 0xff / 2 ^ (ones - 8 * i)

/-- Go `net.CIDRMask ones bits` for `bits` 32 or 128 and `ones ≤ bits`. -/
def CIDRMask (ones bits : Nat) : List Nat :=
  (List.range (bits / 8)).map (maskByte ones)

/-- Go `net.IPNet`: network number and mask. -/
structure IPNet where
  IP : List Nat
  Mask : List Nat
  deriving DecidableEq, Repr

/-- Go `net.IP.Mask`. -/
def IPMask (ip mask : List Nat) : Option (List Nat) :=
  let mask := if mask.length = 16 ∧ ip.length = 4 ∧ mask.take 12 = List.replicate 12 0xff
    then mask.drop 12 else mask
  let ip := if mask.length = 4 ∧ ip.length = 16 ∧ ip.take 12 = v4InV6Prefix
    then ip.drop 12 else ip
  if ip.length ≠ mask.length then none
  else some (List.zipWith Nat.land ip mask)

/-- Go `net.dtoi`: leading decimal digits of a string; value, digits consumed, ok. -/
def dtoiLoop : List Char → Nat → Nat → Nat × Nat × Bool
  | [], n, i => (n, i, true)
  | c :: rest, n, i =>
      match decVal c with
      | none => (n, i, true)
      | some d => if n * 10 + d ≥ 0xFFFFFF then (0xFFFFFF, i, false) else dtoiLoop rest (n * 10 + d)
          (i + 1)

/-- Go `net.dtoi`. -/
def dtoi (s : List Char) : Nat × Nat × Bool :=
  match dtoiLoop s 0 0 with
  | (n, i, ok) => if ok then (if i = 0 then (0, 0, false) else (n, i, true)) else (n, i, false)

/-- Go `net.ParseCIDR`: the address and the network, `none` for an error. -/
def ParseCIDR (s : List Char) : Option (List Nat × IPNet) :=
  if ¬ s.contains '/' then none
  else
    let addr := s.takeWhile (fun c => c ≠ '/')
    let mask := (s.dropWhile (fun c => c ≠ '/')).drop 1
    match ParseAddr addr with
    | none => none
    | some ipAddr =>
        if ipAddr.Zone ≠ [] then none
        else
          match dtoi mask with
          | (n, i, ok) =>
              if ¬ ok ∨ i ≠ mask.length ∨ n > ipAddr.BitLen then none
              else
                let m := CIDRMask n ipAddr.BitLen
                match IPMask ipAddr.As16 m with
                | none => none
                | some net => some (ipAddr.As16, ⟨net, m⟩)

/-- Go `net.networkNumberAndMask`: the network number and mask of a network in
matching lengths; the pair of empty lists stands for the result `nil, nil`. -/
def networkNumberAndMask (n : IPNet) : List Nat × List Nat :=
  let ip : List Nat :=
    match To4 n.IP with
    | some x => x
    | none => if n.IP.length = 16 then n.IP else []
  if ip = [] then ([], [])
  else if n.Mask.length = 4 then
    if ip.length ≠ 4 then ([], []) else (ip, n.Mask)
  else if n.Mask.length = 16 then
    if ip.length = 4 then (ip, n.Mask.drop 12) else (ip, n.Mask)
  else ([], [])

/-- Go `(*net.IPNet).Contains`. -/
def IPNet.Contains (n : IPNet) (ip : List Nat) : Bool :=
  let nn := (networkNumberAndMask n).1
  let m := (networkNumberAndMask n).2
  let ip := (To4 ip).getD ip
  if ip.length ≠ nn.length then false
  else (List.zipWith Nat.land nn m) = (List.zipWith Nat.land ip m)

/-! ## `internal/ipquery/ipinfo.go` -/

/-- Go `float64`, carried as opaque data. -/
abbrev Float64 := Int

/-- The record `IPInfo`. -/
structure IPInfo where
  IP : String
  Country : String := ""
  CountryCode : String := ""
  Region : String := ""
  City : String := ""
  District : String := ""
  ISP : String := ""
  Latitude : Float64 := 0
  Longitude : Float64 := 0
  Timezone : String := ""
  PostalCode : String := ""
  IsValid : Bool := false
  ErrorMessage : String := ""
  deriving DecidableEq, Repr

/-- Go `ValidateIP`. -/
def ValidateIP (ip : String) : Bool :=
  let ip := TrimSpace ip.data
  if ip = [] then false
  else if (ParseIP ip).isSome then true
  else if ip.contains ':' then (ParseCIDR (ip ++ "/128".data)).isSome
  else false

/-- The reserved ranges listed in `IsPrivateIP` (`privateIPv4` followed by `privateIPv6`). -/
def allPrivate : List String :=
  ["10.0.0.0/8", "172.16.0.0/12", "192.168.0.0/16", "127.0.0.0/8", "169.254.0.0/16"] ++
  ["fc00::/7", "fe80::/10", "::1/128"]

/-- Go `IsPrivateIP`. The error of `net.ParseCIDR` is discarded by the source; all eight
constants parse, so the `none` branch is never taken. -/
def IsPrivateIP (ip : String) : Bool :=
  match ParseIP ip.data with
  | none => false
  | some ipAddr =>
      allPrivate.any (fun cidr =>
        match ParseCIDR cidr.data with
        | some (_, subnet) => subnet.Contains ipAddr
        | none => false)

/-- Go `IsPublicIP`. -/
def IsPublicIP (ip : String) : Bool :=
  ValidateIP ip && !IsPrivateIP ip

/-! ## `pkg/errors/errors.go` -/

/-- The error codes (`1000 + iota`). -/
inductive ErrorCode where
  | ErrCodeInvalidIP
  | ErrCodeDatabaseError
  | ErrCodeCacheError
  | ErrCodeInternalError
  | ErrCodeInvalidRequest
  deriving DecidableEq, Repr

/-- Numeric value of an error code. -/
def ErrorCode.toNat : ErrorCode → Nat
  | .ErrCodeInvalidIP => 1000
  | .ErrCodeDatabaseError => 1001
  | .ErrCodeCacheError => 1002
  | .ErrCodeInternalError => 1003
  | .ErrCodeInvalidRequest => 1004

/-- Go `error` values that occur in the repository: the result of `fmt.Errorf` without
a wrapped error, of `fmt.Errorf` with `%w` (text before the wrapped error), and
`*AppError` with its three fields (`Err` is `none` for Go's `nil`). -/
inductive GoError where
  | errorf (text : String)
  | wrapf (text : String) (err : GoError)
  | appError (Code : ErrorCode) (Message : String) (Err : Option GoError)

/-- Go `New`. -/
def New (code : ErrorCode) (message : String) : GoError :=
  .appError code message none

/-- Go `NewWithError`. -/
def NewWithError (code : ErrorCode) (message : String) (err : GoError) : GoError :=
  .appError code message (some err)

/-- Go `(*AppError).Error` and the `Error` method of the `fmt.Errorf` values. -/
def GoError.Error : GoError → String
  | .errorf text => text
  | .wrapf text err => text ++ err.Error
  | .appError code message none =>
      "code: " ++ toString code.toNat ++ ", message: " ++ message
  | .appError code message (some err) =>
      "code: " ++ toString code.toNat ++ ", message: " ++ message ++ ", error: " ++ err.Error

/-- Go `errors.As(err, &appErr)` for `*AppError`: the first `AppError` of the chain,
as its code and message. -/
def asAppError : GoError → Option (ErrorCode × String)
  | .errorf _ => none
  | .wrapf _ err => asAppError err
  | .appError code message _ => some (code, message)

/-- Go `GetCode`. -/
def GetCode (err : GoError) : ErrorCode :=
  match asAppError err with
  | some (code, _) => code
  | none => .ErrCodeInternalError

/-- Go `GetMessage`. -/
def GetMessage (err : GoError) : String :=
  match asAppError err with
  | some (_, message) => message
  | none => err.Error

/-! ## `internal/ipquery/cache.go` -/

/-- Go `CacheItem`. -/
structure CacheItem where
  Value : IPInfo
  Expiration : Int
  deriving DecidableEq, Repr

/-- Go `MemoryCache`: the map of items and the configured TTL (the mutex is not modelled;
every operation below is one critical section). -/
structure MemoryCache where
  items : AList (fun _ : String => CacheItem)
  ttl : Int

/-- The map and TTL set up by `NewMemoryCache`. -/
def NewMemoryCache (ttl : Int) : MemoryCache :=
  { items := ∅, ttl := ttl }

/-- Go `(*MemoryCache).Get` at clock reading `now`; `none` is `(nil, false)`.
`time.Now().After(item.Expiration)` is `now > item.Expiration`. -/
def MemoryCache.Get (c : MemoryCache) (key : String) (now : Int) : Option IPInfo :=
  match c.items.lookup key with
  | none => none
  | some item => if now > item.Expiration then none else some item.Value

/-- Go `(*MemoryCache).Set` at clock reading `now`. -/
def MemoryCache.Set (c : MemoryCache) (key : String) (value : IPInfo) (now : Int) :
    MemoryCache :=
  { c with items := c.items.insert key { Value := value, Expiration := now + c.ttl } }

/-- Go `(*MemoryCache).Delete`. -/
def MemoryCache.Delete (c : MemoryCache) (key : String) : MemoryCache :=
  { c with items := c.items.erase key }

/-- Go `(*MemoryCache).Clear`. -/
def MemoryCache.Clear (c : MemoryCache) : MemoryCache :=
  { c with items := ∅ }

/-- Go `(*MemoryCache).Size`. -/
def MemoryCache.Size (c : MemoryCache) : Nat :=
  c.items.entries.length

/-- One pass of the loop body of `(*MemoryCache).cleanup` at clock reading `now`:
every item with `now.After(item.Expiration)` is deleted. -/
def MemoryCache.cleanupPass (c : MemoryCache) (now : Int) : MemoryCache :=
  { c with items :=
      ⟨c.items.entries.filter (fun e => ¬ (now > e.2.Expiration)),
       c.items.nodupKeys.sublist (List.filter_sublist _)⟩ }

/-- The loop body of `(*MemoryCache).cleanup` at clock reading `now`, statement by
statement: range over the items and `delete(c.items, key)` for each item with
`now.After(item.Expiration)`. The items are visited in the order of the entry list. -/
def MemoryCache.cleanupSweep (c : MemoryCache) (now : Int) : MemoryCache :=
  { c with items :=
      (c.items.entries.foldl
        (fun m e => if now > e.2.Expiration then m.erase e.1 else m) c.items) }

/-- The period `c.ttl / 2` handed to the ticker in `(*MemoryCache).cleanup` (Go's
integer division truncates towards zero). -/
def MemoryCache.cleanupPeriod (c : MemoryCache) : Int :=
  c.ttl.tdiv 2

/-- Go `time.NewTicker`: panics for a non-positive duration, otherwise ticks with the
given period. The error stands for the panic. -/
def NewTicker (d : Int) : Except String Int :=
  if d ≤ 0 then .error "non-positive interval for NewTicker" else .ok d

/-- The ticker that `(*MemoryCache).cleanup` starts: `time.NewTicker(c.ttl / 2)`. -/
def MemoryCache.cleanupTicker (c : MemoryCache) : Except String Int :=
  NewTicker c.cleanupPeriod

/-! ## The provider interface and its two implementations -/

/-- The interface `QueryProvider` over a provider state `σ`. A method returns its Go
results together with the provider state after the call. -/
structure QueryProvider (σ : Type) where
  Query : σ → String → Except GoError IPInfo × σ
  BatchQuery : σ → List String → Except GoError (List IPInfo) × σ
  Close : σ → Option GoError × σ

/-- The values that `math/rand` yields during one call of `(*MockProvider).Query`, in
the order the struct literal draws them: the raw integers behind the `rand.Intn` calls
and the two computed coordinates. -/
structure MockDraw where
  idx : Nat
  region : Nat
  city : Nat
  district : Nat
  isp : Nat
  latitude : Float64
  longitude : Float64
  postal : Nat

/-- Go `MockProvider`. Besides the field `initialized`, the state carries the stream of
draws of the process-wide random source and the number of draws consumed. -/
structure MockProvider where
  initialized : Bool
  rand : Nat → MockDraw
  drawn : Nat

/-- Go `NewMockProvider`. -/
def NewMockProvider (rand : Nat → MockDraw) : MockProvider :=
  { initialized := true, rand := rand, drawn := 0 }

/-- The tables of `(*MockProvider).Query`. -/
def mockCountries : List String := ["中国", "美国", "日本", "韩国", "德国", "英国", "法国", "加拿大"]
/-- The country codes of `(*MockProvider).Query`. -/
def mockCountryCodes : List String := ["CN", "US", "JP", "KR", "DE", "GB", "FR", "CA"]
/-- The regions of `(*MockProvider).Query`. -/
def mockRegions : List String := ["北京", "上海", "广东", "江苏", "浙江", "四川", "湖北", "河南"]
/-- The cities of `(*MockProvider).Query`. -/
def mockCities : List String := ["北京", "上海", "广州", "深圳", "杭州", "南京", "成都", "武汉"]
/-- The ISPs of `(*MockProvider).Query`. -/
def mockIsps : List String := ["中国电信", "中国联通", "中国移动", "中国铁通", "教育网"]

/-- Go `(*MockProvider).Query`. -/
def MockProvider.Query (m : MockProvider) (ip : String) : Except GoError IPInfo × MockProvider :=
  if ¬ m.initialized then (.error (.errorf "provider not initialized"), m)
  else if ¬ ValidateIP ip then
    (.ok { IP := ip, IsValid := false, ErrorMessage := "无效的IP地址格式" }, m)
  else if IsPrivateIP ip then
    (.ok { IP := ip, IsValid := true, Country := "局域网", CountryCode := "LAN",
           Region := "局域网", City := "局域网", ISP := "局域网", Latitude := 0,
           Longitude := 0, Timezone := "UTC", PostalCode := "000000" }, m)
  else
    let d := m.rand m.drawn
    let idx := d.idx % mockCountries.length
    (.ok { IP := ip,
           Country := mockCountries.getD idx "",
           CountryCode := mockCountryCodes.getD idx "",
           Region := mockRegions.getD (d.region % mockRegions.length) "",
           City := mockCities.getD (d.city % mockCities.length) "",
           District := mockCities.getD (d.district % mockCities.length) "" ++ "区",
           ISP := mockIsps.getD (d.isp % mockIsps.length) "",
           Latitude := d.latitude,
           Longitude := d.longitude,
           Timezone := "Asia/Shanghai",
           PostalCode := toString (100000 + d.postal % 900000),
           IsValid := true },
     { m with drawn := m.drawn + 1 })

/-- The loop of `(*MockProvider).BatchQuery`. -/
def MockProvider.batchLoop : List String → MockProvider → List IPInfo × MockProvider
  | [], m => ([], m)
  | ip :: rest, m =>
      let r := m.Query ip
      let info : IPInfo := match r.1 with
        | .ok info => info
        | .error err => { IP := ip, IsValid := false, ErrorMessage := err.Error }
      let out := MockProvider.batchLoop rest r.2
      (info :: out.1, out.2)

/-- Go `(*MockProvider).BatchQuery`. -/
def MockProvider.BatchQuery (m : MockProvider) (ips : List String) :
    Except GoError (List IPInfo) × MockProvider :=
  if ¬ m.initialized then (.error (.errorf "provider not initialized"), m)
  else
    let out := MockProvider.batchLoop ips m
    (.ok out.1, out.2)

/-- Go `(*MockProvider).Close`. -/
def MockProvider.Close (m : MockProvider) : Option GoError × MockProvider :=
  (none, { m with initialized := false })

/-- Go `MockProvider` as a `QueryProvider`. -/
def mockProvider : QueryProvider MockProvider :=
  { Query := MockProvider.Query, BatchQuery := MockProvider.BatchQuery,
    Close := MockProvider.Close }

/-- The vendored `ip2region` searcher, seen through the one method the provider calls:
`SearchByStr` returns the region string or an error. -/
structure Searcher where
  SearchByStr : String → Except GoError String

/-- Go `IP2RegionProvider`, as built by `NewIP2RegionProvider` (`db` is not nil). -/
structure IP2RegionProvider where
  db : Searcher
  initialized : Bool

/-- Go `NewIP2RegionProvider`, given the outcome of `ip2region.NewWithFileOnly`. -/
def NewIP2RegionProvider (opened : Except GoError Searcher) : Except GoError IP2RegionProvider :=
  match opened with
  | .error err => .error (.wrapf "failed to load ip2region database: " err)
  | .ok db => .ok { db := db, initialized := true }

/-- Go `strings.Split` with a one-character separator. -/
def splitSep (sep : Char) : List Char → List (List Char)
  | [] => [[]]
  | c :: cs =>
      if c = sep then [] :: splitSep sep cs
      else
        match splitSep sep cs with
        | [] => [[c]]
        | h :: t => (c :: h) :: t

/-- Go `getCountryCode`. -/
def getCountryCode (country : String) : String :=
  if country = "中国" then "CN"
  else if country = "美国" then "US"
  else if country = "日本" then "JP"
  else if country = "韩国" then "KR"
  else if country = "德国" then "DE"
  else if country = "英国" then "GB"
  else if country = "法国" then "FR"
  else if country = "加拿大" then "CA"
  else "未知"

/-- The field handling of `(*IP2RegionProvider).Query`: split at `|`, replace `"0"` by
the empty string, pad with empty strings up to five fields. -/
def regionParts (info : String) : List String :=
  let parts := (splitSep '|' info.data).map String.mk
  let parts := parts.map (fun p => if p = "0" then "" else p)
  parts ++ List.replicate (5 - parts.length) ""

/-- Go `(*IP2RegionProvider).Query`. -/
def IP2RegionProvider.Query (p : IP2RegionProvider) (ip : String) :
    Except GoError IPInfo × IP2RegionProvider :=
  if ¬ p.initialized then (.error (.errorf "provider not initialized"), p)
  else if ¬ ValidateIP ip then
    (.ok { IP := ip, IsValid := false, ErrorMessage := "无效的IP地址格式" }, p)
  else if IsPrivateIP ip then
    (.ok { IP := ip, IsValid := true, Country := "局域网", CountryCode := "LAN",
           Region := "局域网", City := "局域网", ISP := "局域网", Latitude := 0,
           Longitude := 0, Timezone := "UTC", PostalCode := "000000" }, p)
  else
    match p.db.SearchByStr ip with
    | .error err =>
        (.ok { IP := ip, IsValid := false, ErrorMessage := "IP查询失败: " ++ err.Error }, p)
    | .ok info =>
        let parts := regionParts info
        let country := parts.getD 0 ""
        let region := parts.getD 2 ""
        let city := parts.getD 3 ""
        let isp := parts.getD 4 ""
        (.ok { IP := ip, Country := country, CountryCode := getCountryCode country,
               Region := region, City := city, District := "", ISP := isp, Latitude := 0,
               Longitude := 0, Timezone := "", PostalCode := "", IsValid := true }, p)

/-- The loop of `(*IP2RegionProvider).BatchQuery`. -/
def IP2RegionProvider.batchLoop :
    List String → IP2RegionProvider → List IPInfo × IP2RegionProvider
  | [], p => ([], p)
  | ip :: rest, p =>
      let r := p.Query ip
      let info : IPInfo := match r.1 with
        | .ok info => info
        | .error err => { IP := ip, IsValid := false, ErrorMessage := err.Error }
      let out := IP2RegionProvider.batchLoop rest r.2
      (info :: out.1, out.2)

/-- Go `(*IP2RegionProvider).BatchQuery`. -/
def IP2RegionProvider.BatchQuery (p : IP2RegionProvider) (ips : List String) :
    Except GoError (List IPInfo) × IP2RegionProvider :=
  if ¬ p.initialized then (.error (.errorf "provider not initialized"), p)
  else
    let out := IP2RegionProvider.batchLoop ips p
    (.ok out.1, out.2)

/-- Go `(*IP2RegionProvider).Close`. -/
def IP2RegionProvider.Close (p : IP2RegionProvider) : Option GoError × IP2RegionProvider :=
  (none, { p with initialized := false })

/-- Go `IP2RegionProvider` as a `QueryProvider`. -/
def ip2regionProvider : QueryProvider IP2RegionProvider :=
  { Query := IP2RegionProvider.Query, BatchQuery := IP2RegionProvider.BatchQuery,
    Close := IP2RegionProvider.Close }

/-! ## `internal/service/ip_service.go` -/

/-- Go `atomic.AddInt64` stores the sum reduced to the range of `int64`. -/
def wrapInt64 (n : Int) : Int :=
  (n + 2 ^ 63) % 2 ^ 64 - 2 ^ 63

/-- Go `IPService`: the provider state, the cache (`none` for a nil pointer, i.e. a
disabled cache) and the query counter. Configuration and logger do not influence the
results and are left out. -/
structure IPService (σ : Type) where
  provider : σ
  cache : Option MemoryCache
  queryCount : Int

/-- What one call of a service method yields: the Go result, the service afterwards,
and the addresses with which `provider.Query` was invoked during the call, in order. -/
structure Outcome (σ ρ : Type) where
  result : Except GoError ρ
  state : IPService σ
  calls : List String

/-- Go `NewIPService`, given the outcome of opening the database and the cache settings
of the configuration. -/
def NewIPService (opened : Except GoError Searcher) (cacheEnabled : Bool) (ttl : Int) :
    Except GoError (IPService IP2RegionProvider) :=
  match NewIP2RegionProvider opened with
  | .error err => .error (NewWithError .ErrCodeInternalError "初始化IP查询提供者失败" err)
  | .ok provider =>
      .ok { provider := provider,
            cache := if cacheEnabled then some (NewMemoryCache ttl) else none,
            queryCount := 0 }

/-- Go `(*IPService).QueryIP`. `tGet` is the clock reading inside `cache.Get`, `tSet` the
one inside `cache.Set`. -/
def QueryIP {σ : Type} (P : QueryProvider σ) (s : IPService σ) (ip : String)
    (tGet tSet : Int) : Outcome σ IPInfo :=
  let s := { s with queryCount := wrapInt64 (s.queryCount + 1) }
  if ¬ ValidateIP ip then
    ⟨.error (New .ErrCodeInvalidRequest "无效的IP地址格式"), s, []⟩
  else
    match s.cache.bind (fun c => c.Get ip tGet) with
    | some cached => ⟨.ok cached, s, []⟩
    | none =>
        match P.Query s.provider ip with
        | (.error err, p) =>
            ⟨.error (NewWithError .ErrCodeInternalError "查询IP信息失败" err),
             { s with provider := p }, [ip]⟩
        | (.ok info, p) =>
            ⟨.ok info,
             { s with provider := p,
                      cache := if info.IsValid then s.cache.map (fun c => c.Set ip info tSet)
                               else s.cache },
             [ip]⟩

/-- The record that `BatchQueryIP` puts at the position of an address: the record of
the single query, or the invalid record built from its error. -/
def batchRecord (ip : String) (r : Except GoError IPInfo) : IPInfo :=
  match r with
  | .ok info => info
  | .error err => { IP := ip, IsValid := false, ErrorMessage := GetMessage err }

/-- The loop of `(*IPService).BatchQueryIP` from position `i` on; `clock i` gives the
two clock readings of the query at position `i`. Returns the records, the service
afterwards and the provider calls. -/
def batchLoop {σ : Type} (P : QueryProvider σ) (clock : Nat → Int × Int) :
    List String → Nat → IPService σ → List IPInfo × IPService σ × List String
  | [], _, s => ([], s, [])
  | ip :: rest, i, s =>
      let o := QueryIP P s ip (clock i).1 (clock i).2
      let out := batchLoop P clock rest (i + 1) o.state
      (batchRecord ip o.result :: out.1, out.2.1, o.calls ++ out.2.2)

/-- Go `(*IPService).BatchQueryIP`. -/
def BatchQueryIP {σ : Type} (P : QueryProvider σ) (s : IPService σ) (ips : List String)
    (clock : Nat → Int × Int) : Outcome σ (List IPInfo) :=
  if ips.length = 0 then
    ⟨.error (New .ErrCodeInvalidRequest "IP列表不能为空"), s, []⟩
  else if ips.length > 100 then
    ⟨.error (New .ErrCodeInvalidRequest "单次查询IP数量不能超过100个"), s, []⟩
  else
    let s := { s with queryCount := wrapInt64 (s.queryCount + ips.length) }
    let out := batchLoop P clock ips 0 s
    ⟨.ok out.1, out.2.1, out.2.2⟩

/-- Go `(*IPService).getCacheSize`. -/
def getCacheSize {σ : Type} (s : IPService σ) : Nat :=
  match s.cache with
  | some c => c.Size
  | none => 0

/-- The snapshot of `(*IPService).GetServiceStatus` without its `uptime` entry (a
`float64` derived from the clock). -/
structure ServiceStatus where
  status : String
  version : String
  query_count : Int
  cache_size : Nat
  deriving DecidableEq, Repr

/-- Go `(*IPService).GetServiceStatus`. -/
def GetServiceStatus {σ : Type} (s : IPService σ) : ServiceStatus :=
  { status := "running", version := "1.0.0", query_count := s.queryCount,
    cache_size := getCacheSize s }

/-- Go `(*IPService).Close` (the provider field is never nil in a constructed service). -/
def IPService.Close {σ : Type} (P : QueryProvider σ) (s : IPService σ) :
    Option GoError × IPService σ :=
  let r := P.Close s.provider
  (r.1, { s with provider := r.2 })

/-- States a service can be in: built with an empty (or no) cache and a zero counter,
then driven by `QueryIP`, `BatchQueryIP`, `Close` and passes of the cache sweep, at
arbitrary clock readings. -/
inductive Reachable {σ : Type} (P : QueryProvider σ) : IPService σ → Prop where
  | init (p : σ) (cache : Option Int) :
      Reachable P { provider := p, cache := cache.map NewMemoryCache, queryCount := 0 }
  | query {s : IPService σ} (ip : String) (tGet tSet : Int) :
      Reachable P s → Reachable P (QueryIP P s ip tGet tSet).state
  | batch {s : IPService σ} (ips : List String) (clock : Nat → Int × Int) :
      Reachable P s → Reachable P (BatchQueryIP P s ips clock).state
  | sweep {s : IPService σ} (now : Int) :
      Reachable P s → Reachable P { s with cache := s.cache.map (fun c => c.cleanupPass now) }
  | close {s : IPService σ} :
      Reachable P s → Reachable P (IPService.Close P s).2

/-- The clock readings and position-wise composition of single queries: the service
after `QueryIP` has been called for each address of the list in turn, the query at
list position `j` using the readings `clock (i + j)`. -/
def runQueries {σ : Type} (P : QueryProvider σ) (clock : Nat → Int × Int) :
    List String → Nat → IPService σ → IPService σ
  | [], _, s => s
  | ip :: rest, i, s => runQueries P clock rest (i + 1) (QueryIP P s ip (clock i).1
      (clock i).2).state

/-- The fixed record for a reserved address, as both providers build it. -/
def lanRecord (ip : String) : IPInfo :=
  { IP := ip, IsValid := true, Country := "局域网", CountryCode := "LAN",
    Region := "局域网", City := "局域网", ISP := "局域网", Latitude := 0,
    Longitude := 0, Timezone := "UTC", PostalCode := "000000" }

/-- A provider whose valid answers for reserved addresses are the fixed record. -/
def LanCompliant {σ : Type} (P : QueryProvider σ) : Prop :=
  ∀ (p p1 : σ) (ip : String) (info : IPInfo), IsPrivateIP ip = true →
    P.Query p ip = (.ok info, p1) → info.IsValid = true → info = lanRecord ip

/-- The cache invariant behind the fixed record: what is stored under a reserved
address is the fixed record for that address. -/
def LanCached {σ : Type} (s : IPService σ) : Prop :=
  ∀ (c : MemoryCache) (k : String) (item : CacheItem), s.cache = some c →
    c.items.lookup k = some item → IsPrivateIP k = true → item.Value = lanRecord k

/-- The cache invariant of the service over provider `P`: every stored record is valid,
its key is an accepted address string, and the record is an answer of `P.Query` to
exactly that key. -/
def ValidCached {σ : Type} (P : QueryProvider σ) (s : IPService σ) : Prop :=
  ∀ (c : MemoryCache) (k : String) (item : CacheItem), s.cache = some c →
    c.items.lookup k = some item →
    item.Value.IsValid = true ∧ ValidateIP k = true ∧
      ∃ p p1 : σ, P.Query p k = (.ok item.Value, p1)

/-- The record invariant of `IPInfo`: an invalid record has empty geographic fields,
zero coordinates and a non-empty error message; a valid record has an empty error
message. -/
def recordInvariant (r : IPInfo) : Bool :=
  if r.IsValid then r.ErrorMessage = ""
  else
    r.Country = "" ∧ r.CountryCode = "" ∧ r.Region = "" ∧ r.City = "" ∧ r.District = "" ∧
    r.ISP = "" ∧ r.Timezone = "" ∧ r.PostalCode = "" ∧ r.Latitude = 0 ∧ r.Longitude = 0 ∧
    r.ErrorMessage ≠ ""

/-- A provider all of whose records satisfy the record invariant. -/
def RecordsOK {σ : Type} (P : QueryProvider σ) : Prop :=
  ∀ (p p1 : σ) (ip : String) (info : IPInfo),
    P.Query p ip = (.ok info, p1) → recordInvariant info = true

/-- The reserved IPv4 ranges as conditions on the first two octets of `a.b.c.d`:
10/8, 172.16/12, 192.168/16, 127/8, 169.254/16. -/
def reservedV4 (a b : Nat) : Bool :=
  a = 10 ∨ (a = 172 ∧ 16 ≤ b ∧ b ≤ 31) ∨ (a = 192 ∧ b = 168) ∨ a = 127 ∨
    (a = 169 ∧ b = 254)

/-- The reserved IPv6 ranges as conditions on the sixteen bytes: fc00::/7 (the first
seven bits are those of `fc`), fe80::/10 (the first ten bits are those of `fe80`),
::1/128 (the address is `::1`). -/
def reservedV6 (ip : List Nat) : Bool :=
  match ip with
  | b0 :: b1 :: _ =>
      b0 / 2 = 0xfc / 2 ∨ (b0 = 0xfe ∧ b1 / 64 = 0x80 / 64) ∨
        ip = List.replicate 15 0 ++ [1]
  | _ => false

/-- Membership of a parsed address (sixteen bytes, an IPv4 address being in its
IPv4-mapped form as `net.ParseIP` returns it) in one of the reserved ranges. -/
def inReservedRange (ip : List Nat) : Bool :=
  if ip.take 12 = v4InV6Prefix then
    match ip.drop 12 with
    | [a, b, _, _] => reservedV4 a b
    | _ => false
  else reservedV6 ip

/-! ## `internal/handler/http_handler.go` -/

/-- Go `http.StatusOK`. -/
def StatusOK : Nat := 200

/-- Go `http.StatusBadRequest`. -/
def StatusBadRequest : Nat := 400

/-- The JSON object (`gin.H`) a handler writes: `code` and `message` for a failure,
`code` and `data` for a record or a list of records. -/
inductive ResponseBody where
  | failure (code : Nat) (message : String)
  | record (code : Nat) (data : IPInfo)
  | records (code : Nat) (data : List IPInfo)

/-- What `c.JSON(status, body)` sends. -/
structure HTTPResponse where
  status : Nat
  body : ResponseBody

/-- Go `(*HTTPHandler).QueryIP`; `param` is `c.Param("ip")`. Returns the response and
the service afterwards. -/
def HTTPHandler.QueryIP {σ : Type} (P : QueryProvider σ) (s : IPService σ) (param : String)
    (tGet tSet : Int) : HTTPResponse × IPService σ :=
  let ip := String.mk (TrimSpace param.data)
  if ip = "" then
    ({ status := StatusBadRequest,
       body := .failure ErrorCode.ErrCodeInvalidRequest.toNat "IP地址不能为空" }, s)
  else
    let o := Goip.QueryIP P s ip tGet tSet
    match o.result with
    | .error err =>
        ({ status := StatusBadRequest,
           body := .failure (GetCode err).toNat (GetMessage err) }, o.state)
    | .ok info => ({ status := StatusOK, body := .record 0 info }, o.state)

/-- Go `(*HTTPHandler).BatchQueryIP`; `req` is the outcome of `c.ShouldBindJSON`
(`none` for a binding error, otherwise the field `IPs`). -/
def HTTPHandler.BatchQueryIP {σ : Type} (P : QueryProvider σ) (s : IPService σ)
    (req : Option (List String)) (clock : Nat → Int × Int) : HTTPResponse × IPService σ :=
  match req with
  | none =>
      ({ status := StatusBadRequest,
         body := .failure ErrorCode.ErrCodeInvalidRequest.toNat "请求格式错误" }, s)
  | some ips =>
      let o := Goip.BatchQueryIP P s ips clock
      match o.result with
      | .error err =>
          ({ status := StatusBadRequest,
             body := .failure (GetCode err).toNat (GetMessage err) }, o.state)
      | .ok infos => ({ status := StatusOK, body := .records 0 infos }, o.state)

/-- Go `(*HTTPHandler).GetClientIP`; `clientIP` is `c.ClientIP()`. -/
def HTTPHandler.GetClientIP {σ : Type} (P : QueryProvider σ) (s : IPService σ)
    (clientIP : String) (tGet tSet : Int) : HTTPResponse × IPService σ :=
  let o := Goip.QueryIP P s clientIP tGet tSet
  match o.result with
  | .error err =>
      ({ status := StatusBadRequest,
         body := .failure (GetCode err).toNat (GetMessage err) }, o.state)
  | .ok info => ({ status := StatusOK, body := .record 0 info }, o.state)

/-- Field number `i` of a split region string as the record carries it: the field
itself, with the field `0` and a missing field both becoming the empty string. -/
def fieldOrEmpty (fields : List String) (i : Nat) : String :=
  match fields[i]? with
  | some f => if f = "0" then "" else f
  | none => ""

/-- A service over `IP2RegionProvider` whose provider has been closed. -/
def closedService : IPService IP2RegionProvider :=
  { provider := { db := { SearchByStr := fun _ => .ok "" }, initialized := false },
    cache := some (NewMemoryCache 10), queryCount := 0 }

/-! ### Sample data for the concrete instances below -/

/-- A searcher that knows one address. -/
def sampleSearcher : Searcher :=
  { SearchByStr := fun ip =>
      if ip = "8.8.8.8" then .ok "美国|0|加利福尼亚|0|谷歌" else .error (.errorf "no region") }

/-- A service over `IP2RegionProvider` with the cache enabled (TTL 10) and nothing
cached or counted yet. -/
def sampleService : IPService IP2RegionProvider :=
  { provider := { db := sampleSearcher, initialized := true },
    cache := some (NewMemoryCache 10), queryCount := 0 }

/-- A valid record used as a cached value. -/
def sampleRecord : IPInfo :=
  { IP := "8.8.8.8", Country := "美国", CountryCode := "US", IsValid := true }

/-! ## Properties -/

/-! ### The cache -/

theorem Get_eq_none_iff (c : MemoryCache) (key : String) (now : Int) :
    c.Get key now = none ↔
      (c.items.lookup key = none ∨
        ∃ item, c.items.lookup key = some item ∧ item.Expiration < now) := by
  unfold MemoryCache.Get
  cases h : c.items.lookup key with
  | none => simp
  | some item =>
      by_cases hlt : now > item.Expiration
      · simp [hlt]
      · simp [hlt]

theorem Get_of_lookup (c : MemoryCache) (key : String) (now : Int) (item : CacheItem)
    (h : c.items.lookup key = some item) (hle : now ≤ item.Expiration) :
    c.Get key now = some item.Value := by
  unfold MemoryCache.Get
  simp [h, not_lt.mpr hle]

theorem lookup_Set_self (c : MemoryCache) (k : String) (v : IPInfo) (t : Int) :
    (c.Set k v t).items.lookup k = some { Value := v, Expiration := t + c.ttl } := by
  simp [MemoryCache.Set]

theorem lookup_Set_other (c : MemoryCache) (k k' : String) (v : IPInfo) (t : Int)
    (h : k' ≠ k) : (c.Set k v t).items.lookup k' = c.items.lookup k' := by
  simp [MemoryCache.Set, AList.lookup_insert_ne h]

/-- C2 (as stated) fails: an entry whose expiration equals the current time is still
returned by `Get`, so "expiration at or before now gives found=false" does not hold. -/
theorem Get_at_or_before_counterexample :
    ¬ ∀ (c : MemoryCache) (key : String) (now : Int),
        (c.items.lookup key = none ∨
          ∃ item, c.items.lookup key = some item ∧ item.Expiration ≤ now) →
        c.Get key now = none := by
  intro h
  have h1 := h ((NewMemoryCache 10).Set "8.8.8.8" sampleRecord 0) "8.8.8.8" 10
    (Or.inr ⟨⟨sampleRecord, 10⟩, by decide, by decide⟩)
  revert h1
  decide

/-- C2 (amended): `Get` returns found=false exactly when the key is absent or the
stored expiration is strictly before the current time; an entry whose expiration is
at or after the current time (equality included) is returned with its stored value. -/
theorem Get_found_iff (c : MemoryCache) (key : String) (now : Int) :
    (c.Get key now = none ↔
      (c.items.lookup key = none ∨
        ∃ item, c.items.lookup key = some item ∧ item.Expiration < now)) ∧
    (∀ item, c.items.lookup key = some item → now ≤ item.Expiration →
      c.Get key now = some item.Value) :=
  ⟨Get_eq_none_iff c key now, fun item h hle => Get_of_lookup c key now item h hle⟩

/-- C3: with a positive TTL, `Set k v` at time `t` followed by `Get k` at a time `t'`
with `t ≤ t' < t + TTL` returns `(v, true)`, whatever the cache held before. -/
theorem Set_then_Get (c : MemoryCache) (k : String) (v : IPInfo) (t t' : Int)
    (httl : 0 < c.ttl) (h1 : t ≤ t') (h2 : t' < t + c.ttl) :
    (c.Set k v t).Get k t' = some v := by
  have _ := httl
  have _ := h1
  have := Get_of_lookup (c.Set k v t) k t' _ (lookup_Set_self c k v t) (le_of_lt h2)
  simpa using this

/-- Instance of `Set_then_Get`: TTL 10, written at time 0 over an older entry, read at 9. -/
theorem Set_then_Get_witness :
    (0 : Int) < ((NewMemoryCache 10).Set "8.8.8.8" (lanRecord "8.8.8.8") (-100)).ttl ∧
    (((NewMemoryCache 10).Set "8.8.8.8" (lanRecord "8.8.8.8") (-100)).Set
        "8.8.8.8" sampleRecord 0).Get "8.8.8.8" 9 = some sampleRecord :=
  ⟨by decide,
   Set_then_Get ((NewMemoryCache 10).Set "8.8.8.8" (lanRecord "8.8.8.8") (-100))
     "8.8.8.8" sampleRecord 0 9 (by decide) (by decide) (by decide)⟩

/-! ### The single query -/

theorem QueryIP_invalid_eq {σ : Type} (P : QueryProvider σ) (s : IPService σ) (ip : String)
    (tGet tSet : Int) (h : ValidateIP ip = false) :
    QueryIP P s ip tGet tSet =
      ⟨.error (New .ErrCodeInvalidRequest "无效的IP地址格式"),
       { s with queryCount := wrapInt64 (s.queryCount + 1) }, []⟩ := by
  simp [QueryIP, h]

theorem QueryIP_hit_eq {σ : Type} (P : QueryProvider σ) (s : IPService σ) (ip : String)
    (tGet tSet : Int) (r : IPInfo) (hv : ValidateIP ip = true)
    (h : s.cache.bind (fun c => c.Get ip tGet) = some r) :
    QueryIP P s ip tGet tSet =
      ⟨.ok r, { s with queryCount := wrapInt64 (s.queryCount + 1) }, []⟩ := by
  simp [QueryIP, hv, h]

theorem QueryIP_miss_error_eq {σ : Type} (P : QueryProvider σ) (s : IPService σ)
    (ip : String) (tGet tSet : Int) (err : GoError) (p : σ) (hv : ValidateIP ip = true)
    (h : s.cache.bind (fun c => c.Get ip tGet) = none)
    (hq : P.Query s.provider ip = (.error err, p)) :
    QueryIP P s ip tGet tSet =
      ⟨.error (NewWithError .ErrCodeInternalError "查询IP信息失败" err),
       { s with provider := p, queryCount := wrapInt64 (s.queryCount + 1) }, [ip]⟩ := by
  simp [QueryIP, hv, h, hq]

theorem QueryIP_miss_ok_eq {σ : Type} (P : QueryProvider σ) (s : IPService σ)
    (ip : String) (tGet tSet : Int) (info : IPInfo) (p : σ) (hv : ValidateIP ip = true)
    (h : s.cache.bind (fun c => c.Get ip tGet) = none)
    (hq : P.Query s.provider ip = (.ok info, p)) :
    QueryIP P s ip tGet tSet =
      ⟨.ok info,
       { provider := p,
         cache := if info.IsValid then s.cache.map (fun c => c.Set ip info tSet) else s.cache,
         queryCount := wrapInt64 (s.queryCount + 1) }, [ip]⟩ := by
  simp [QueryIP, hv, h, hq]

/-- Every `QueryIP` leaves the counter at the old value plus one, reduced to `int64`. -/
theorem QueryIP_queryCount {σ : Type} (P : QueryProvider σ) (s : IPService σ) (ip : String)
    (tGet tSet : Int) :
    (QueryIP P s ip tGet tSet).state.queryCount = wrapInt64 (s.queryCount + 1) := by
  unfold QueryIP
  simp only []
  split
  · rfl
  · split
    · rfl
    · split <;> rfl

/-- After a `QueryIP` that returned a valid record `r`, the cache holds `r` under the
queried address; its expiration is the time of the write plus the TTL when the call
was a cache miss. -/
theorem QueryIP_ok_cached {σ : Type} (P : QueryProvider σ) (s : IPService σ)
    (c : MemoryCache) (a : String) (t1 t2 : Int) (r : IPInfo)
    (hc : s.cache = some c) (h1 : (QueryIP P s a t1 t2).result = .ok r)
    (hv : r.IsValid = true) :
    ∃ e : Int, ∃ c1 : MemoryCache,
      (QueryIP P s a t1 t2).state.cache = some c1 ∧
      c1.items.lookup a = some { Value := r, Expiration := e } ∧
      (c.Get a t1 = none → e = t2 + c.ttl) := by
  by_cases hval : ValidateIP a = true
  · cases hget : c.Get a t1 with
    | some cached =>
        have hb : s.cache.bind (fun c => c.Get a t1) = some cached := by simp [hc, hget]
        rw [QueryIP_hit_eq P s a t1 t2 cached hval hb] at h1 ⊢
        have hr : cached = r := by simpa using h1
        subst hr
        unfold MemoryCache.Get at hget
        cases hl : c.items.lookup a with
        | none => simp [hl] at hget
        | some item =>
            rw [hl] at hget
            by_cases hlt : t1 > item.Expiration
            · simp [hlt] at hget
            · simp [hlt] at hget
              refine ⟨item.Expiration, c, hc, ?_, fun h => by cases h⟩
              rw [hl, ← hget]
    | none =>
        have hb : s.cache.bind (fun c => c.Get a t1) = none := by simp [hc, hget]
        cases hq : P.Query s.provider a with
        | mk res p =>
            cases res with
            | error err =>
                rw [QueryIP_miss_error_eq P s a t1 t2 err p hval hb hq] at h1
                simp at h1
            | ok info =>
                rw [QueryIP_miss_ok_eq P s a t1 t2 info p hval hb hq] at h1 ⊢
                have hr : info = r := by simpa using h1
                subst hr
                refine ⟨t2 + c.ttl, c.Set a info t2, ?_, ?_, fun _ => rfl⟩
                · simp [hv, hc]
                · exact lookup_Set_self c a info t2
  · have hval' : ValidateIP a = false := by simpa using hval
    rw [QueryIP_invalid_eq P s a t1 t2 hval'] at h1
    simp at h1

/-- C1: with the cache enabled and a positive TTL, if `QueryIP a` returns a valid
record `r`, the cache then holds `r` under `a` with some expiration `e` (the time of
the write plus the TTL, hence later than the write, when the call missed the cache and
populated it), and every later `QueryIP a` whose cache read happens no later than `e`
returns exactly `r`, makes no call to the provider, and leaves provider and cache as
they were. -/
theorem QueryIP_cache_roundtrip {σ : Type} (P : QueryProvider σ) (s : IPService σ)
    (c : MemoryCache) (a : String) (t1 t2 : Int) (r : IPInfo)
    (hc : s.cache = some c) (httl : 0 < c.ttl)
    (h1 : (QueryIP P s a t1 t2).result = .ok r) (hv : r.IsValid = true) :
    ∃ e : Int, ∃ c1 : MemoryCache,
      (QueryIP P s a t1 t2).state.cache = some c1 ∧
      c1.items.lookup a = some { Value := r, Expiration := e } ∧
      (c.Get a t1 = none → e = t2 + c.ttl ∧ t2 < e) ∧
      ∀ t3 t4 : Int, t3 ≤ e →
        (QueryIP P (QueryIP P s a t1 t2).state a t3 t4).result = .ok r ∧
        (QueryIP P (QueryIP P s a t1 t2).state a t3 t4).calls = [] ∧
        (QueryIP P (QueryIP P s a t1 t2).state a t3 t4).state.provider =
          (QueryIP P s a t1 t2).state.provider ∧
        (QueryIP P (QueryIP P s a t1 t2).state a t3 t4).state.cache =
          (QueryIP P s a t1 t2).state.cache := by
  have hval : ValidateIP a = true := by
    by_contra hval
    have hval' : ValidateIP a = false := by simpa using hval
    rw [QueryIP_invalid_eq P s a t1 t2 hval'] at h1
    simp at h1
  rcases QueryIP_ok_cached P s c a t1 t2 r hc h1 hv with ⟨e, c1, hc1, hl, he⟩
  refine ⟨e, c1, hc1, hl, fun hmiss => ⟨he hmiss, by have := he hmiss; omega⟩, ?_⟩
  intro t3 t4 ht
  have hg : c1.Get a t3 = some r := Get_of_lookup c1 a t3 _ hl ht
  have hb : (QueryIP P s a t1 t2).state.cache.bind (fun c => c.Get a t3) = some r := by
    simp [hc1, hg]
  rw [QueryIP_hit_eq P _ a t3 t4 r hval hb]
  exact ⟨rfl, rfl, rfl, rfl⟩

/-- Instance of `QueryIP_cache_roundtrip`: the first query of `8.8.8.8` on a fresh
service (TTL 10) reads the cache at time 0 and writes it at time 1; a second query at
time 11 is answered from the cache. -/
theorem QueryIP_cache_roundtrip_witness :
    ∃ e : Int, ∃ c1 : MemoryCache,
      (QueryIP ip2regionProvider sampleService "8.8.8.8" 0 1).state.cache = some c1 ∧
      c1.items.lookup "8.8.8.8" =
        some { Value := { IP := "8.8.8.8", Country := "美国", CountryCode := "US",
                          Region := "加利福尼亚", ISP := "谷歌", IsValid := true },
               Expiration := e } ∧
      ((NewMemoryCache 10).Get "8.8.8.8" 0 = none → e = 1 + (NewMemoryCache 10).ttl ∧ 1 < e) ∧
      ∀ t3 t4 : Int, t3 ≤ e →
        (QueryIP ip2regionProvider
          (QueryIP ip2regionProvider sampleService "8.8.8.8" 0 1).state "8.8.8.8" t3 t4).result =
          .ok { IP := "8.8.8.8", Country := "美国", CountryCode := "US",
                Region := "加利福尼亚", ISP := "谷歌", IsValid := true } ∧
        (QueryIP ip2regionProvider
          (QueryIP ip2regionProvider sampleService "8.8.8.8" 0 1).state "8.8.8.8" t3 t4).calls = [] ∧
        (QueryIP ip2regionProvider
          (QueryIP ip2regionProvider sampleService "8.8.8.8" 0 1).state "8.8.8.8" t3 t4).state.provider =
          (QueryIP ip2regionProvider sampleService "8.8.8.8" 0 1).state.provider ∧
        (QueryIP ip2regionProvider
          (QueryIP ip2regionProvider sampleService "8.8.8.8" 0 1).state "8.8.8.8" t3 t4).state.cache =
          (QueryIP ip2regionProvider sampleService "8.8.8.8" 0 1).state.cache :=
  QueryIP_cache_roundtrip ip2regionProvider sampleService (NewMemoryCache 10) "8.8.8.8" 0 1
    { IP := "8.8.8.8", Country := "美国", CountryCode := "US",
      Region := "加利福尼亚", ISP := "谷歌", IsValid := true }
    rfl (by decide) (by rfl) rfl

/-- C4: for every string that `ValidateIP` rejects, `QueryIP` returns no record but a
failure whose code is `ErrCodeInvalidRequest` (not `ErrCodeInternalError`) with a
non-empty message, so the record made from it is invalid with that non-empty message;
the provider is not called, and provider, cache and cache size are as before. -/
theorem QueryIP_rejects_invalid {σ : Type} (P : QueryProvider σ) (s : IPService σ)
    (ip : String) (tGet tSet : Int) (h : ValidateIP ip = false) :
    (QueryIP P s ip tGet tSet).result =
      .error (.appError .ErrCodeInvalidRequest "无效的IP地址格式" none) ∧
    (∀ err, (QueryIP P s ip tGet tSet).result = .error err →
      GetCode err = .ErrCodeInvalidRequest ∧ GetCode err ≠ .ErrCodeInternalError ∧
      GetMessage err ≠ "") ∧
    (batchRecord ip (QueryIP P s ip tGet tSet).result).IsValid = false ∧
    (batchRecord ip (QueryIP P s ip tGet tSet).result).ErrorMessage ≠ "" ∧
    (QueryIP P s ip tGet tSet).calls = [] ∧
    (QueryIP P s ip tGet tSet).state.provider = s.provider ∧
    (QueryIP P s ip tGet tSet).state.cache = s.cache ∧
    getCacheSize (QueryIP P s ip tGet tSet).state = getCacheSize s := by
  rw [QueryIP_invalid_eq P s ip tGet tSet h]
  have hmsg : ("无效的IP地址格式" : String) ≠ "" := by decide
  refine ⟨rfl, ?_, rfl, hmsg, rfl, rfl, rfl, rfl⟩
  intro err herr
  have : err = New .ErrCodeInvalidRequest "无效的IP地址格式" := by
    simpa using herr.symm
  subst this
  exact ⟨rfl, by decide, hmsg⟩

/-- Instance of `QueryIP_rejects_invalid` at the string `not-an-ip`. -/
theorem QueryIP_rejects_invalid_witness :
    (QueryIP ip2regionProvider sampleService "not-an-ip" 0 0).result =
      .error (.appError .ErrCodeInvalidRequest "无效的IP地址格式" none) ∧
    (QueryIP ip2regionProvider sampleService "not-an-ip" 0 0).calls = [] ∧
    (QueryIP ip2regionProvider sampleService "not-an-ip" 0 0).state.cache =
      sampleService.cache :=
  have h := QueryIP_rejects_invalid ip2regionProvider sampleService "not-an-ip" 0 0
    (by decide)
  ⟨h.1, h.2.2.2.2.1, h.2.2.2.2.2.2.1⟩

/-! ### Parsed addresses contain no white space -/

theorem isSpace_of_range (c : Char) (h : 46 ≤ c.toNat ∧ c.toNat ≤ 102) : isSpace c = false := by
  simp only [isSpace, Bool.or_eq_false_iff, decide_eq_false_iff_not, Bool.and_eq_false_imp,
    decide_eq_true_eq]
  omega

theorem decVal_nospace (c : Char) (d : Nat) (h : decVal c = some d) : isSpace c = false := by
  unfold decVal at h
  split at h
  · exact isSpace_of_range c (by omega)
  · cases h

theorem hexVal_nospace (c : Char) (v : Nat) (h : hexVal c = some v) : isSpace c = false := by
  unfold hexVal at h
  simp only at h
  split at h
  · exact isSpace_of_range c (by omega)
  · split at h
    · exact isSpace_of_range c (by omega)
    · split at h
      · exact isSpace_of_range c (by omega)
      · cases h

theorem parseIPv4Loop_nospace :
    ∀ (s : List Char) (prev : Option Char) (val pos digLen : Nat) (fields r : List Nat),
      parseIPv4Loop s prev val pos digLen fields = some r → ∀ c ∈ s, isSpace c = false := by
  intro s
  induction s with
  | nil => intro _ _ _ _ _ _ _ c hc; cases hc
  | cons x rest ih =>
      intro prev val pos digLen fields r h c hc
      unfold parseIPv4Loop at h
      cases hd : decVal x with
      | some d =>
          rw [hd] at h
          simp only at h
          split at h
          · cases h
          · split at h
            · cases h
            · rcases List.mem_cons.mp hc with rfl | hc
              · exact decVal_nospace _ d hd
              · exact ih _ _ _ _ _ _ h c hc
      | none =>
          rw [hd] at h
          simp only at h
          split at h
          · rename_i hx
            split at h
            · cases h
            · split at h
              · cases h
              · rcases List.mem_cons.mp hc with rfl | hc
                · rw [hx]; decide
                · exact ih _ _ _ _ _ _ h c hc
          · cases h

theorem scanHex_nospace :
    ∀ (s : List Char) (off acc off1 acc1 : Nat) (rest : List Char),
      scanHex s off acc = some (off1, acc1, rest) →
      ∃ pre, s = pre ++ rest ∧ ∀ c ∈ pre, isSpace c = false := by
  intro s
  induction s with
  | nil =>
      intro off acc off1 acc1 rest h
      simp [scanHex] at h
      exact ⟨[], by simp [h.2.2], by simp⟩
  | cons x xs ih =>
      intro off acc off1 acc1 rest h
      unfold scanHex at h
      cases hv : hexVal x with
      | none =>
          rw [hv] at h
          simp only [Option.some.injEq, Prod.mk.injEq] at h
          exact ⟨[], by simp [h.2.2], by simp⟩
      | some v =>
          rw [hv] at h
          simp only at h
          split at h
          · cases h
          · split at h
            · cases h
            · rcases ih _ _ _ _ _ h with ⟨pre, hpre, hns⟩
              refine ⟨x :: pre, by simp [hpre], ?_⟩
              intro c hc
              rcases List.mem_cons.mp hc with rfl | hc
              · exact hexVal_nospace _ v hv
              · exact hns c hc

theorem parseIPv6Loop_nospace :
    ∀ (fuel : Nat) (s : List Char) (ip : List Nat) (e : Option Nat)
      (rest : List Char) (ip1 : List Nat) (e1 : Option Nat),
      parseIPv6Loop fuel s ip e = some (rest, ip1, e1) →
      ∃ pre, s = pre ++ rest ∧ ∀ c ∈ pre, isSpace c = false := by
  intro fuel
  induction fuel with
  | zero =>
      intro s ip e rest ip1 e1 h
      simp only [parseIPv6Loop, Option.some.injEq, Prod.mk.injEq] at h
      exact ⟨[], by simp [h.1], by simp⟩
  | succ n ih =>
      intro s ip e rest ip1 e1 h
      unfold parseIPv6Loop at h
      by_cases hlen : ip.length < 16
      · rw [if_pos hlen] at h
        cases hsc : scanHex s 0 0 with
        | none => rw [hsc] at h; cases h
        | some t =>
            obtain ⟨off, acc, rst⟩ := t
            rw [hsc] at h
            obtain ⟨pre, hpre, hns⟩ := scanHex_nospace _ _ _ _ _ _ hsc
            simp only at h
            by_cases hoff : off = 0
            · rw [if_pos hoff] at h; cases h
            · rw [if_neg hoff] at h
              by_cases hdot : rst.head? = some '.'
              · rw [if_pos hdot] at h
                split at h
                · cases h
                · split at h
                  · cases h
                  · cases hv4 : parseIPv4Fields s with
                    | none => rw [hv4] at h; cases h
                    | some v4 =>
                        rw [hv4] at h
                        simp only [Option.some.injEq, Prod.mk.injEq] at h
                        refine ⟨s, by simp [← h.1], ?_⟩
                        exact parseIPv4Loop_nospace s _ _ _ _ _ _ hv4
              · rw [if_neg hdot] at h
                cases rst with
                | nil =>
                    simp only [Option.some.injEq, Prod.mk.injEq] at h
                    exact ⟨pre, by rw [← h.1]; simpa using hpre, hns⟩
                | cons c rest1 =>
                    simp only at h
                    by_cases hc : c = ':'
                    · rw [if_neg (by simpa using hc)] at h
                      have hcs : isSpace c = false := by rw [hc]; decide
                      cases rest1 with
                      | nil => cases h
                      | cons c1 rest2 =>
                          simp only at h
                          by_cases hc1 : c1 = ':'
                          · rw [if_pos hc1] at h
                            have hc1s : isSpace c1 = false := by rw [hc1]; decide
                            split at h
                            · cases h
                            · cases rest2 with
                              | nil =>
                                  simp only [Option.some.injEq, Prod.mk.injEq] at h
                                  refine ⟨s, by simp [← h.1], ?_⟩
                                  intro x hx
                                  rw [hpre] at hx
                                  rcases List.mem_append.mp hx with hx | hx
                                  · exact hns x hx
                                  · simp only [List.mem_cons, List.mem_singleton,
                                      List.not_mem_nil, or_false] at hx
                                    rcases hx with rfl | rfl
                                    · exact hcs
                                    · exact hc1s
                              | cons c2 rest3 =>
                                  simp only at h
                                  obtain ⟨pre2, hpre2, hns2⟩ := ih _ _ _ _ _ _ h
                                  refine ⟨pre ++ [c, c1] ++ pre2, by rw [hpre, hpre2]; simp, ?_⟩
                                  intro x hx
                                  simp only [List.mem_append, List.mem_cons, List.mem_singleton,
                                    List.not_mem_nil, or_false] at hx
                                  rcases hx with (hx | rfl | rfl) | hx
                                  · exact hns x hx
                                  · exact hcs
                                  · exact hc1s
                                  · exact hns2 x hx
                          · rw [if_neg hc1] at h
                            obtain ⟨pre2, hpre2, hns2⟩ := ih _ _ _ _ _ _ h
                            refine ⟨pre ++ [c] ++ pre2, by rw [hpre, hpre2]; simp, ?_⟩
                            intro x hx
                            simp only [List.mem_append, List.mem_cons, List.mem_singleton,
                              List.not_mem_nil, or_false] at hx
                            rcases hx with (hx | rfl) | hx
                            · exact hns x hx
                            · exact hcs
                            · exact hns2 x hx
                    · rw [if_pos (by simpa using hc)] at h; cases h
      · rw [if_neg hlen] at h
        simp only [Option.some.injEq, Prod.mk.injEq] at h
        exact ⟨[], by simp [h.1], by simp⟩

theorem expandEllipsis_some (zone : List Char) (r : Option (List Char × List Nat × Option Nat))
    (a : Addr) (h : expandEllipsis zone r = some a) :
    a.Zone = zone ∧ ∃ ip e, r = some ([], ip, e) := by
  cases r with
  | none => cases h
  | some t =>
      obtain ⟨rest, ip, e⟩ := t
      simp only [expandEllipsis] at h
      by_cases hrest : rest ≠ []
      · rw [if_pos hrest] at h; cases h
      · rw [if_neg hrest] at h
        have hrest : rest = [] := by simpa using hrest
        subst hrest
        refine ⟨?_, ip, e, rfl⟩
        split at h
        · split at h
          · cases h
          · simp only [Option.some.injEq] at h
            rw [← h]; rfl
        · split at h
          · cases h
          · simp only [Option.some.injEq] at h
            rw [← h]; rfl

theorem parseIPv6_nospace (input : List Char) (a : Addr) (h : parseIPv6 input = some a)
    (hz : a.Zone = []) : ∀ c ∈ input, isSpace c = false := by
  unfold parseIPv6 at h
  simp only at h
  by_cases hzone : input.contains '%' = true ∧
      (input.dropWhile (fun c => decide (c ≠ '%'))).drop 1 = []
  · rw [if_pos hzone] at h; cases h
  · rw [if_neg hzone] at h
    have hloop : ∀ (s : List Char) (e : Option Nat),
        expandEllipsis ((input.dropWhile (fun c => decide (c ≠ '%'))).drop 1)
          (parseIPv6Loop 8 s [] e) = some a →
        ((input.dropWhile (fun c => decide (c ≠ '%'))).drop 1 = []) ∧
          ∀ c ∈ s, isSpace c = false := by
      intro s e he
      obtain ⟨hzv, ip, e1, hr⟩ := expandEllipsis_some _ _ _ he
      obtain ⟨pre, hpre, hns⟩ := parseIPv6Loop_nospace _ _ _ _ _ _ _ hr
      simp only [List.append_nil] at hpre
      subst hpre
      exact ⟨by rw [← hzv]; exact hz, hns⟩
    have hfin : (input.dropWhile (fun c => decide (c ≠ '%'))).drop 1 = [] →
        input.takeWhile (fun c => decide (c ≠ '%')) = input := by
      intro hzone_eq
      have hno : ¬ ('%' ∈ input) := fun hmem => hzone ⟨by simpa using hmem, hzone_eq⟩
      rw [List.takeWhile_eq_self_iff]
      intro c hc
      have : c ≠ '%' := fun hcp => hno (hcp ▸ hc)
      simpa using this
    have hcolon : isSpace ':' = false := by decide
    generalize hs : input.takeWhile (fun c => decide (c ≠ '%')) = s at h hfin
    match s, h with
    | [], h =>
        obtain ⟨hzv, _⟩ := hloop _ _ h
        rw [← hfin hzv]; simp
    | [_], h =>
        obtain ⟨hzv, hns⟩ := hloop _ _ h
        rw [← hfin hzv]; exact hns
    | c0 :: c1 :: s1, h =>
        simp only at h
        by_cases hlead : c0 = ':' ∧ c1 = ':'
        · rw [if_pos hlead] at h
          by_cases hs1 : s1 = []
          · rw [if_pos hs1] at h
            simp only [Option.some.injEq] at h
            have hzv : (input.dropWhile (fun c => decide (c ≠ '%'))).drop 1 = [] := by
              rw [← h] at hz; exact hz
            rw [← hfin hzv, hs1, hlead.1, hlead.2]
            simp [hcolon]
          · rw [if_neg hs1] at h
            obtain ⟨hzv, hns⟩ := hloop _ _ h
            rw [← hfin hzv, hlead.1, hlead.2]
            intro c hc
            simp only [List.mem_cons] at hc
            rcases hc with rfl | rfl | hc
            · exact hcolon
            · exact hcolon
            · exact hns c hc
        · rw [if_neg hlead] at h
          obtain ⟨hzv, hns⟩ := hloop _ _ h
          rw [← hfin hzv]; exact hns

theorem ParseIP_nospace (s : List Char) (b : List Nat) (h : ParseIP s = some b) :
    s ≠ [] ∧ ∀ c ∈ s, isSpace c = false := by
  unfold ParseIP at h
  cases ha : ParseAddr s with
  | none => rw [ha] at h; cases h
  | some a =>
      rw [ha] at h
      simp only at h
      split at h
      · cases h
      · rename_i hz
        have hz : a.Zone = [] := by simpa using hz
        unfold ParseAddr at ha
        constructor
        · rintro rfl
          simp at ha
        · split at ha
          · split at ha
            · cases hv : parseIPv4Fields s with
              | none => rw [hv] at ha; cases ha
              | some v => exact parseIPv4Loop_nospace s _ _ _ _ _ _ hv
            · split at ha
              · exact parseIPv6_nospace s a ha hz
              · cases ha
          · cases ha

theorem dropWhile_eq_self_of_all_false {p : Char → Bool} (l : List Char)
    (h : ∀ c ∈ l, p c = false) : l.dropWhile p = l := by
  cases l with
  | nil => rfl
  | cons x xs => simp [List.dropWhile, h x (List.mem_cons_self x xs)]

theorem TrimSpace_eq_self (s : List Char) (h : ∀ c ∈ s, isSpace c = false) :
    TrimSpace s = s := by
  unfold TrimSpace
  rw [dropWhile_eq_self_of_all_false s h,
    dropWhile_eq_self_of_all_false s.reverse (fun c hc => h c (List.mem_reverse.mp hc)),
    List.reverse_reverse]

/-- An address that parses is accepted by `ValidateIP`: parsing leaves no room for
surrounding white space. -/
theorem ValidateIP_of_ParseIP (ip : String) (b : List Nat) (h : ParseIP ip.data = some b) :
    ValidateIP ip = true := by
  obtain ⟨hne, hns⟩ := ParseIP_nospace ip.data b h
  unfold ValidateIP
  simp only [TrimSpace_eq_self ip.data hns, h, hne]
  simp

/-- Every address classified as reserved is a valid address. -/
theorem ValidateIP_of_IsPrivateIP (ip : String) (h : IsPrivateIP ip = true) :
    ValidateIP ip = true := by
  unfold IsPrivateIP at h
  cases hp : ParseIP ip.data with
  | none => rw [hp] at h; cases h
  | some b => exact ValidateIP_of_ParseIP ip b hp

/-! ### Reserved addresses -/

theorem MockProvider_Query_reserved (m : MockProvider) (ip : String)
    (hi : m.initialized = true) (hp : IsPrivateIP ip = true) :
    m.Query ip = (.ok (lanRecord ip), m) := by
  simp [MockProvider.Query, hi, ValidateIP_of_IsPrivateIP ip hp, hp, lanRecord]

theorem IP2RegionProvider_Query_reserved (p : IP2RegionProvider) (ip : String)
    (hi : p.initialized = true) (hp : IsPrivateIP ip = true) :
    p.Query ip = (.ok (lanRecord ip), p) := by
  simp [IP2RegionProvider.Query, hi, ValidateIP_of_IsPrivateIP ip hp, hp, lanRecord]

theorem mockProvider_LanCompliant : LanCompliant mockProvider := by
  intro m m1 ip info hp hq _
  by_cases hi : m.initialized = true
  · have h := MockProvider_Query_reserved m ip hi hp
    have hq : MockProvider.Query m ip = (.ok info, m1) := hq
    rw [h] at hq
    simp only [Prod.mk.injEq, Except.ok.injEq] at hq
    exact hq.1.symm
  · have hq : MockProvider.Query m ip = (.ok info, m1) := hq
    simp [MockProvider.Query, hi] at hq

theorem ip2regionProvider_LanCompliant : LanCompliant ip2regionProvider := by
  intro m m1 ip info hp hq _
  by_cases hi : m.initialized = true
  · have h := IP2RegionProvider_Query_reserved m ip hi hp
    have hq : IP2RegionProvider.Query m ip = (.ok info, m1) := hq
    rw [h] at hq
    simp only [Prod.mk.injEq, Except.ok.injEq] at hq
    exact hq.1.symm
  · have hq : IP2RegionProvider.Query m ip = (.ok info, m1) := hq
    simp [IP2RegionProvider.Query, hi] at hq

/-- What a `QueryIP` can do to the cache: nothing, or one `Set` of a valid record that
the provider returned for the queried address. -/
theorem QueryIP_cache_cases {σ : Type} (P : QueryProvider σ) (s : IPService σ) (ip : String)
    (tGet tSet : Int) :
    (QueryIP P s ip tGet tSet).state.cache = s.cache ∨
    ∃ (c : MemoryCache) (info : IPInfo) (p : σ),
      s.cache = some c ∧ ValidateIP ip = true ∧ P.Query s.provider ip = (.ok info, p) ∧
      info.IsValid = true ∧
      (QueryIP P s ip tGet tSet).state.cache = some (c.Set ip info tSet) := by
  by_cases hval : ValidateIP ip = true
  · cases hb : s.cache.bind (fun c => c.Get ip tGet) with
    | some cached =>
        rw [QueryIP_hit_eq P s ip tGet tSet cached hval hb]
        exact Or.inl rfl
    | none =>
        cases hq : P.Query s.provider ip with
        | mk res p =>
            cases res with
            | error err =>
                rw [QueryIP_miss_error_eq P s ip tGet tSet err p hval hb hq]
                exact Or.inl rfl
            | ok info =>
                rw [QueryIP_miss_ok_eq P s ip tGet tSet info p hval hb hq]
                by_cases hv : info.IsValid = true
                · cases hc : s.cache with
                  | none => left; simp [hv, hc]
                  | some c =>
                      right
                      exact ⟨c, info, p, rfl, hval, rfl, hv, by simp [hv]⟩
                · left; simp [hv]
  · have hval' : ValidateIP ip = false := by simpa using hval
    rw [QueryIP_invalid_eq P s ip tGet tSet hval']
    exact Or.inl rfl

theorem LanCached_QueryIP {σ : Type} (P : QueryProvider σ) (hP : LanCompliant P)
    (s : IPService σ) (ip : String) (tGet tSet : Int) (h : LanCached s) :
    LanCached (QueryIP P s ip tGet tSet).state := by
  rcases QueryIP_cache_cases P s ip tGet tSet with hc | ⟨c, info, p, hc, _, hq, hv, hc1⟩
  · intro c k item hck
    rw [hc] at hck
    exact h c k item hck
  · intro c1 k item hck hl hp
    rw [hc1] at hck
    simp only [Option.some.injEq] at hck
    subst hck
    by_cases hk : k = ip
    · subst hk
      rw [lookup_Set_self] at hl
      simp only [Option.some.injEq] at hl
      rw [← hl]
      exact hP _ _ _ _ hp hq hv
    · rw [lookup_Set_other c ip k info tSet hk] at hl
      exact h c k item hc hl hp

theorem LanCached_batchLoop {σ : Type} (P : QueryProvider σ) (hP : LanCompliant P)
    (clock : Nat → Int × Int) :
    ∀ (ips : List String) (i : Nat) (s : IPService σ), LanCached s →
      LanCached (batchLoop P clock ips i s).2.1 := by
  intro ips
  induction ips with
  | nil => intro i s h; exact h
  | cons ip rest ih =>
      intro i s h
      exact ih (i + 1) _ (LanCached_QueryIP P hP s ip _ _ h)

theorem cleanupPass_lookup (c : MemoryCache) (now : Int) (k : String) (item : CacheItem)
    (h : (c.cleanupPass now).items.lookup k = some item) :
    c.items.lookup k = some item := by
  have h1 : item ∈ (c.cleanupPass now).items.lookup k := h
  rw [AList.mem_lookup_iff] at h1
  have h2 : (⟨k, item⟩ : Sigma fun _ : String => CacheItem) ∈ c.items.entries :=
    List.mem_of_mem_filter h1
  exact AList.mem_lookup_iff.mpr h2

theorem LanCached_of_Reachable {σ : Type} (P : QueryProvider σ) (hP : LanCompliant P)
    (s : IPService σ) (h : Reachable P s) : LanCached s := by
  induction h with
  | init p cache =>
      intro c k item hc hl _
      cases cache with
      | none => simp at hc
      | some ttl =>
          simp only [Option.map_some', Option.some.injEq] at hc
          subst hc
          simp [NewMemoryCache] at hl
  | query ip tGet tSet _ ih => exact LanCached_QueryIP P hP _ ip tGet tSet ih
  | @batch s ips clock _ ih =>
      unfold BatchQueryIP
      split
      · exact ih
      · split
        · exact ih
        · apply LanCached_batchLoop P hP
          intro c k item hc hl hp
          exact ih c k item hc hl hp
  | @sweep s now _ ih =>
      intro c k item hc hl hp
      cases hs : s.cache with
      | none => simp [hs] at hc
      | some c0 =>
          simp only [hs, Option.map_some', Option.some.injEq] at hc
          subst hc
          exact ih c0 k item hs (cleanupPass_lookup c0 now k item hl) hp
  | close _ ih =>
      intro c k item hc hl hp
      exact ih c k item hc hl hp

/-- For a compliant provider that answers reserved addresses, every query of a reserved
address in a reachable state returns the fixed record. -/
theorem QueryIP_reserved_of_compliant {σ : Type} (P : QueryProvider σ) (hP : LanCompliant P)
    (s : IPService σ) (h : Reachable P s) (a : String) (hp : IsPrivateIP a = true)
    (hq : P.Query s.provider a = (.ok (lanRecord a), s.provider)) (tGet tSet : Int) :
    (QueryIP P s a tGet tSet).result = .ok (lanRecord a) := by
  have hval := ValidateIP_of_IsPrivateIP a hp
  have hinv := LanCached_of_Reachable P hP s h
  cases hb : s.cache.bind (fun c => c.Get a tGet) with
  | some cached =>
      rw [QueryIP_hit_eq P s a tGet tSet cached hval hb]
      cases hc : s.cache with
      | none => simp [hc] at hb
      | some c =>
          simp only [hc, Option.some_bind] at hb
          unfold MemoryCache.Get at hb
          cases hl : c.items.lookup a with
          | none => simp [hl] at hb
          | some item =>
              rw [hl] at hb
              simp only at hb
              split at hb
              · cases hb
              · simp only [Option.some.injEq] at hb
                rw [← hb, hinv c a item hc hl hp]
  | none =>
      rw [QueryIP_miss_ok_eq P s a tGet tSet (lanRecord a) s.provider hval hb hq]

/-- C5 (as stated) fails: the orchestrator has no reserved-range check, so on a cache
miss a reserved address is passed to `provider.Query`. -/
theorem QueryIP_reserved_calls_counterexample :
    ¬ ∀ (s : IPService IP2RegionProvider) (a : String) (tGet tSet : Int),
        IsPrivateIP a = true → (QueryIP ip2regionProvider s a tGet tSet).calls = [] := by
  intro h
  have h1 := h sampleService "192.168.1.1" 0 0 (by decide)
  have h2 : (QueryIP ip2regionProvider sampleService "192.168.1.1" 0 0).calls =
      ["192.168.1.1"] := by rfl
  rw [h2] at h1
  cases h1

/-- C5 (amended): for every reserved address, `QueryIP` calls `provider.Query` exactly
once (with that address) on a cache miss and not at all on a cache hit; the fixed
local-network record is built by the provider: for every reserved address, a
`MockProvider` or `IP2RegionProvider` that is initialized returns it without consulting
the database or drawing random values (the provider state is unchanged), and one that
has been closed returns the error `provider not initialized` and no record. -/
theorem QueryIP_reserved_calls {σ : Type} (P : QueryProvider σ) (s : IPService σ)
    (a : String) (tGet tSet : Int) (hp : IsPrivateIP a = true) :
    (s.cache.bind (fun c => c.Get a tGet) = none →
      (QueryIP P s a tGet tSet).calls = [a]) ∧
    (∀ r, s.cache.bind (fun c => c.Get a tGet) = some r →
      (QueryIP P s a tGet tSet).calls = [] ∧ (QueryIP P s a tGet tSet).result = .ok r) ∧
    (∀ m : MockProvider,
      m.Query a =
        if m.initialized = true then (.ok (lanRecord a), m)
        else (.error (.errorf "provider not initialized"), m)) ∧
    (∀ p : IP2RegionProvider,
      p.Query a =
        if p.initialized = true then (.ok (lanRecord a), p)
        else (.error (.errorf "provider not initialized"), p)) := by
  have hval := ValidateIP_of_IsPrivateIP a hp
  refine ⟨?_, ?_, ?_, ?_⟩
  · intro hb
    cases hq : P.Query s.provider a with
    | mk res p =>
        cases res with
        | error err => rw [QueryIP_miss_error_eq P s a tGet tSet err p hval hb hq]
        | ok info => rw [QueryIP_miss_ok_eq P s a tGet tSet info p hval hb hq]
  · intro r hb
    rw [QueryIP_hit_eq P s a tGet tSet r hval hb]
    exact ⟨rfl, rfl⟩
  · intro m
    by_cases hi : m.initialized = true
    · rw [if_pos hi]
      exact MockProvider_Query_reserved m a hi hp
    · rw [if_neg hi]
      simp [MockProvider.Query, hi]
  · intro p
    by_cases hi : p.initialized = true
    · rw [if_pos hi]
      exact IP2RegionProvider_Query_reserved p a hi hp
    · rw [if_neg hi]
      simp [IP2RegionProvider.Query, hi]

/-- Instance of `QueryIP_reserved_calls`: `192.168.1.1` on a service with an empty cache
reaches the provider once. -/
theorem QueryIP_reserved_calls_witness :
    IsPrivateIP "192.168.1.1" = true ∧
    (QueryIP ip2regionProvider sampleService "192.168.1.1" 0 0).calls = ["192.168.1.1"] :=
  ⟨by decide,
   (QueryIP_reserved_calls ip2regionProvider sampleService "192.168.1.1" 0 0
      (by decide)).1 (by rfl)⟩

/-- C6: for every reserved address `a` and every reachable state of a service whose
provider (`MockProvider` or `IP2RegionProvider`) is initialized, `QueryIP a` returns
the fixed record: valid, no error message, country code `LAN`, latitude and longitude
0, time zone `UTC`, postal code `000000`, and the queried address in the field `IP`. -/
theorem QueryIP_reserved_record (a : String) (tGet tSet : Int) (hp : IsPrivateIP a = true) :
    (∀ s : IPService MockProvider, Reachable mockProvider s →
      s.provider.initialized = true →
      (QueryIP mockProvider s a tGet tSet).result = .ok (lanRecord a)) ∧
    (∀ s : IPService IP2RegionProvider, Reachable ip2regionProvider s →
      s.provider.initialized = true →
      (QueryIP ip2regionProvider s a tGet tSet).result = .ok (lanRecord a)) ∧
    (lanRecord a).IsValid = true ∧ (lanRecord a).ErrorMessage = "" ∧
    (lanRecord a).CountryCode = "LAN" ∧ (lanRecord a).Latitude = 0 ∧
    (lanRecord a).Longitude = 0 ∧ (lanRecord a).Timezone = "UTC" ∧
    (lanRecord a).PostalCode = "000000" ∧ (lanRecord a).IP = a := by
  refine ⟨?_, ?_, rfl, rfl, rfl, rfl, rfl, rfl, rfl, rfl⟩
  · intro s hs hi
    exact QueryIP_reserved_of_compliant mockProvider mockProvider_LanCompliant s hs a hp
      (MockProvider_Query_reserved s.provider a hi hp) tGet tSet
  · intro s hs hi
    exact QueryIP_reserved_of_compliant ip2regionProvider ip2regionProvider_LanCompliant s hs
      a hp (IP2RegionProvider_Query_reserved s.provider a hi hp) tGet tSet

/-- Instance of `QueryIP_reserved_record`: `fe80::1`, queried a second time (from the
cache) on the service reached by a first query of the same address. -/
theorem QueryIP_reserved_record_witness :
    IsPrivateIP "fe80::1" = true ∧
    (QueryIP ip2regionProvider
      (QueryIP ip2regionProvider sampleService "fe80::1" 0 1).state "fe80::1" 2 3).result =
      .ok (lanRecord "fe80::1") :=
  ⟨by decide,
   (QueryIP_reserved_record "fe80::1" 2 3 (by decide)).2.1
     (QueryIP ip2regionProvider sampleService "fe80::1" 0 1).state
     (Reachable.query "fe80::1" 0 1 (Reachable.init sampleService.provider (some 10)))
     (by rfl)⟩

/-! ### The batch query -/

theorem batchLoop_length {σ : Type} (P : QueryProvider σ) (clock : Nat → Int × Int) :
    ∀ (ips : List String) (i : Nat) (s : IPService σ),
      (batchLoop P clock ips i s).1.length = ips.length := by
  intro ips
  induction ips with
  | nil => intro i s; rfl
  | cons ip rest ih => intro i s; simp [batchLoop, ih]

theorem batchLoop_state {σ : Type} (P : QueryProvider σ) (clock : Nat → Int × Int) :
    ∀ (ips : List String) (i : Nat) (s : IPService σ),
      (batchLoop P clock ips i s).2.1 = runQueries P clock ips i s := by
  intro ips
  induction ips with
  | nil => intro i s; rfl
  | cons ip rest ih => intro i s; simp [batchLoop, runQueries, ih]

theorem batchLoop_position {σ : Type} (P : QueryProvider σ) (clock : Nat → Int × Int) :
    ∀ (pre : List String) (ip : String) (post : List String) (i : Nat) (s : IPService σ),
      (batchLoop P clock (pre ++ ip :: post) i s).1[pre.length]? =
        some (batchRecord ip
          (QueryIP P (runQueries P clock pre i s) ip
            (clock (i + pre.length)).1 (clock (i + pre.length)).2).result) := by
  intro pre
  induction pre with
  | nil => intro ip post i s; simp [batchLoop, runQueries]
  | cons x xs ih =>
      intro ip post i s
      have := ih ip post (i + 1) (QueryIP P s x (clock i).1 (clock i).2).state
      have hidx : i + 1 + xs.length = i + (xs.length + 1) := by omega
      rw [hidx] at this
      simp only [List.cons_append, batchLoop, List.length_cons, List.getElem?_cons_succ,
        runQueries]
      exact this

/-- Every failure of `QueryIP` is an `AppError` with a non-empty message. -/
theorem QueryIP_error_message {σ : Type} (P : QueryProvider σ) (s : IPService σ)
    (ip : String) (tGet tSet : Int) (err : GoError)
    (h : (QueryIP P s ip tGet tSet).result = .error err) : GetMessage err ≠ "" := by
  have hm1 : ("无效的IP地址格式" : String) ≠ "" := by decide
  have hm2 : ("查询IP信息失败" : String) ≠ "" := by decide
  by_cases hval : ValidateIP ip = true
  · cases hb : s.cache.bind (fun c => c.Get ip tGet) with
    | some cached =>
        rw [QueryIP_hit_eq P s ip tGet tSet cached hval hb] at h
        cases h
    | none =>
        cases hq : P.Query s.provider ip with
        | mk res p =>
            cases res with
            | error e =>
                rw [QueryIP_miss_error_eq P s ip tGet tSet e p hval hb hq] at h
                simp only [Except.error.injEq] at h
                rw [← h]
                exact hm2
            | ok info =>
                rw [QueryIP_miss_ok_eq P s ip tGet tSet info p hval hb hq] at h
                cases h
  · have hval' : ValidateIP ip = false := by simpa using hval
    rw [QueryIP_invalid_eq P s ip tGet tSet hval'] at h
    simp only [Except.error.injEq] at h
    rw [← h]
    exact hm1

/-- C7: `BatchQueryIP` fails exactly when the list is empty or longer than 100; the
failure then has code `ErrCodeInvalidRequest` and nothing was done (service state,
hence counter, cache and provider, unchanged; no provider call). Lists of 1 to 100
addresses yield a result list. -/
theorem BatchQueryIP_size_check {σ : Type} (P : QueryProvider σ) (s : IPService σ)
    (ips : List String) (clock : Nat → Int × Int) :
    ((∃ err, (BatchQueryIP P s ips clock).result = .error err) ↔
      (ips.length = 0 ∨ 100 < ips.length)) ∧
    (∀ err, (BatchQueryIP P s ips clock).result = .error err →
      GetCode err = .ErrCodeInvalidRequest ∧ (BatchQueryIP P s ips clock).state = s ∧
      (BatchQueryIP P s ips clock).calls = []) ∧
    ((1 ≤ ips.length ∧ ips.length ≤ 100) →
      ∃ rs, (BatchQueryIP P s ips clock).result = .ok rs) := by
  unfold BatchQueryIP
  by_cases h0 : ips.length = 0
  · rw [if_pos h0]
    refine ⟨⟨fun _ => Or.inl h0, fun _ => ⟨_, rfl⟩⟩, ?_, fun h => by omega⟩
    intro err herr
    simp only [Except.error.injEq] at herr
    subst herr
    exact ⟨rfl, rfl, rfl⟩
  · rw [if_neg h0]
    by_cases h100 : ips.length > 100
    · rw [if_pos h100]
      refine ⟨⟨fun _ => Or.inr h100, fun _ => ⟨_, rfl⟩⟩, ?_, fun h => by omega⟩
      intro err herr
      simp only [Except.error.injEq] at herr
      subst herr
      exact ⟨rfl, rfl, rfl⟩
    · rw [if_neg h100]
      refine ⟨⟨?_, fun h => by exfalso; omega⟩, ?_, fun _ => ⟨_, rfl⟩⟩
      · rintro ⟨err, herr⟩; cases herr
      · intro err herr; cases herr

/-- C8: for a list of 1 to 100 addresses `BatchQueryIP` returns as many records as
addresses; the record at the position of an address is the outcome of the single
query of that address, run on the service as left by the queries of the addresses
before it; a failed single query gives there a record with the address in `IP`,
validity false and a non-empty error message, and the later positions are still
processed. -/
theorem BatchQueryIP_positional {σ : Type} (P : QueryProvider σ) (s : IPService σ)
    (ips : List String) (clock : Nat → Int × Int)
    (h1 : 1 ≤ ips.length) (h100 : ips.length ≤ 100) :
    ∃ rs, (BatchQueryIP P s ips clock).result = .ok rs ∧ rs.length = ips.length ∧
      ∀ (pre : List String) (ip : String) (post : List String), ips = pre ++ ip :: post →
        rs[pre.length]? = some (batchRecord ip
          (QueryIP P
            (runQueries P clock pre 0
              { s with queryCount := wrapInt64 (s.queryCount + ips.length) })
            ip (clock pre.length).1 (clock pre.length).2).result) ∧
        (∀ info, (QueryIP P
            (runQueries P clock pre 0
              { s with queryCount := wrapInt64 (s.queryCount + ips.length) })
            ip (clock pre.length).1 (clock pre.length).2).result = .ok info →
          rs[pre.length]? = some info) ∧
        (∀ err, (QueryIP P
            (runQueries P clock pre 0
              { s with queryCount := wrapInt64 (s.queryCount + ips.length) })
            ip (clock pre.length).1 (clock pre.length).2).result = .error err →
          ∃ r, rs[pre.length]? = some r ∧ r.IP = ip ∧ r.IsValid = false ∧
            r.ErrorMessage ≠ "") := by
  have h0 : ¬ ips.length = 0 := by omega
  have h100' : ¬ ips.length > 100 := by omega
  refine ⟨(batchLoop P clock ips 0
    { s with queryCount := wrapInt64 (s.queryCount + ips.length) }).1, ?_, ?_, ?_⟩
  · simp [BatchQueryIP, h0, h100']
  · exact batchLoop_length P clock ips 0 _
  · intro pre ip post hips
    have hpos := batchLoop_position P clock pre ip post 0
      { s with queryCount := wrapInt64 (s.queryCount + ips.length) }
    rw [← hips] at hpos
    simp only [Nat.zero_add] at hpos
    refine ⟨hpos, ?_, ?_⟩
    · intro info hinfo
      rw [hpos, hinfo]
      rfl
    · intro err herr
      refine ⟨_, hpos, ?_⟩
      rw [herr]
      exact ⟨rfl, rfl, QueryIP_error_message P _ ip _ _ err herr⟩

/-- Instance of `BatchQueryIP_positional`: the list `not-an-ip`, `192.168.0.1`,
`8.8.8.8` on a service whose source resolves `8.8.8.8` gives three records with
validity false, true, true, the first one carrying the address and the message of the
validation failure. -/
theorem BatchQueryIP_positional_witness :
    ∃ rs, (BatchQueryIP ip2regionProvider sampleService
        ["not-an-ip", "192.168.0.1", "8.8.8.8"] (fun _ => (0, 0))).result = .ok rs ∧
      rs.length = 3 ∧ rs.map (fun r => r.IsValid) = [false, true, true] ∧
      rs[0]? = some { IP := "not-an-ip", IsValid := false, ErrorMessage := "无效的IP地址格式" } := by
  obtain ⟨rs, hrs, hlen, _⟩ := BatchQueryIP_positional ip2regionProvider sampleService
    ["not-an-ip", "192.168.0.1", "8.8.8.8"] (fun _ => (0, 0)) (by decide) (by decide)
  refine ⟨rs, hrs, hlen, ?_⟩
  have hval : (BatchQueryIP ip2regionProvider sampleService
        ["not-an-ip", "192.168.0.1", "8.8.8.8"] (fun _ => (0, 0))).result =
      .ok [{ IP := "not-an-ip", IsValid := false, ErrorMessage := "无效的IP地址格式" },
           lanRecord "192.168.0.1",
           { IP := "8.8.8.8", Country := "美国", CountryCode := "US",
             Region := "加利福尼亚", ISP := "谷歌", IsValid := true }] := by rfl
  rw [hval] at hrs
  simp only [Except.ok.injEq] at hrs
  subst hrs
  exact ⟨rfl, rfl⟩

/-! ### The query counter -/

theorem wrapInt64_of_range (n : Int) (hlo : -2 ^ 63 ≤ n) (hhi : n < 2 ^ 63) :
    wrapInt64 n = n := by
  unfold wrapInt64
  omega

theorem runQueries_queryCount {σ : Type} (P : QueryProvider σ) (clock : Nat → Int × Int) :
    ∀ (ips : List String) (i : Nat) (s : IPService σ), -2 ^ 63 ≤ s.queryCount →
      s.queryCount + ips.length < 2 ^ 63 →
      (runQueries P clock ips i s).queryCount = s.queryCount + ips.length := by
  intro ips
  induction ips with
  | nil => intro i s _ _; simp [runQueries]
  | cons ip rest ih =>
      intro i s hlo hhi
      simp only [List.length_cons, Nat.cast_add, Nat.cast_one] at hhi
      have h1 : (QueryIP P s ip (clock i).1 (clock i).2).state.queryCount = s.queryCount + 1 := by
        rw [QueryIP_queryCount, wrapInt64_of_range _ (by omega) (by omega)]
      have := ih (i + 1) (QueryIP P s ip (clock i).1 (clock i).2).state (by omega) (by omega)
      simp only [runQueries, List.length_cons, Nat.cast_add, Nat.cast_one]
      rw [this, h1]
      omega

/-- C9: every call of `QueryIP`, whatever the address, the cache and the provider do,
raises the counter by exactly one, and `k` calls in sequence raise the count reported
by `GetServiceStatus` by exactly `k`, which therefore never decreases (the counter
being an `int64` that stays below its maximum). -/
theorem QueryIP_counts_one {σ : Type} (P : QueryProvider σ) (s : IPService σ) (ip : String)
    (tGet tSet : Int) (ips : List String) (clock : Nat → Int × Int) (i : Nat)
    (hlo : -2 ^ 63 ≤ s.queryCount) (h1 : s.queryCount + 1 < 2 ^ 63)
    (hk : s.queryCount + ips.length < 2 ^ 63) :
    (QueryIP P s ip tGet tSet).state.queryCount = s.queryCount + 1 ∧
    (GetServiceStatus (QueryIP P s ip tGet tSet).state).query_count =
      (GetServiceStatus s).query_count + 1 ∧
    (GetServiceStatus (runQueries P clock ips i s)).query_count =
      (GetServiceStatus s).query_count + ips.length ∧
    (GetServiceStatus s).query_count ≤
      (GetServiceStatus (runQueries P clock ips i s)).query_count := by
  have hq : (QueryIP P s ip tGet tSet).state.queryCount = s.queryCount + 1 := by
    rw [QueryIP_queryCount, wrapInt64_of_range _ (by omega) (by omega)]
  have hr := runQueries_queryCount P clock ips i s hlo hk
  refine ⟨hq, hq, hr, ?_⟩
  show s.queryCount ≤ (runQueries P clock ips i s).queryCount
  rw [hr]
  omega

/-- Instance of `QueryIP_counts_one`: on a fresh service an invalid address counts, and
three queries (invalid, reserved, public) bring the reported count to 3. -/
theorem QueryIP_counts_one_witness :
    (QueryIP ip2regionProvider sampleService "not-an-ip" 0 0).state.queryCount = 0 + 1 ∧
    (GetServiceStatus (runQueries ip2regionProvider (fun _ => (0, 0))
      ["not-an-ip", "192.168.0.1", "8.8.8.8"] 0 sampleService)).query_count = 0 + 3 :=
  have h := QueryIP_counts_one ip2regionProvider sampleService "not-an-ip" 0 0
    ["not-an-ip", "192.168.0.1", "8.8.8.8"] (fun _ => (0, 0)) 0
    (by decide) (by decide) (by decide)
  ⟨h.1, h.2.2.1⟩

/-- C10 (what the code does): an accepted batch of `N` addresses raises the counter by
`2 * N`, not `N`: `BatchQueryIP` adds `N` and each of the `N` calls of `QueryIP` adds
one more. -/
theorem BatchQueryIP_count_doubled {σ : Type} (P : QueryProvider σ) (s : IPService σ)
    (ips : List String) (clock : Nat → Int × Int)
    (h1 : 1 ≤ ips.length) (h100 : ips.length ≤ 100)
    (hlo : -2 ^ 63 ≤ s.queryCount) (hhi : s.queryCount + 2 * ips.length < 2 ^ 63) :
    (BatchQueryIP P s ips clock).state.queryCount = s.queryCount + 2 * ips.length := by
  have h0 : ¬ ips.length = 0 := by omega
  have h100' : ¬ ips.length > 100 := by omega
  unfold BatchQueryIP
  rw [if_neg h0, if_neg h100']
  simp only [batchLoop_state]
  have hw : wrapInt64 (s.queryCount + ips.length) = s.queryCount + ips.length :=
    wrapInt64_of_range _ (by omega) (by omega)
  rw [runQueries_queryCount P clock ips 0 _ (by simp only [hw]; omega)
    (by simp only [hw]; omega)]
  simp only [hw]
  omega

/-- Instance of `BatchQueryIP_count_doubled`: a batch of one address on a fresh service
leaves the reported query count at 2. -/
theorem BatchQueryIP_count_doubled_witness :
    (GetServiceStatus (BatchQueryIP ip2regionProvider sampleService ["8.8.8.8"]
      (fun _ => (0, 0))).state).query_count = 2 :=
  BatchQueryIP_count_doubled ip2regionProvider sampleService ["8.8.8.8"] (fun _ => (0, 0))
    (by decide) (by decide) (by decide) (by decide)

/-! ### Source failures and the cache invariant -/

/-- C11: for a valid address on a cache miss, an error of the source makes `QueryIP`
return a failure with code `ErrCodeInternalError` that wraps the cause, without a
record and with the cache unchanged; a record with validity false is returned as it
is, with the cache unchanged. -/
theorem QueryIP_source_failure {σ : Type} (P : QueryProvider σ) (s : IPService σ)
    (ip : String) (tGet tSet : Int) (hv : ValidateIP ip = true)
    (hmiss : s.cache.bind (fun c => c.Get ip tGet) = none) :
    (∀ (err : GoError) (p : σ), P.Query s.provider ip = (.error err, p) →
      (QueryIP P s ip tGet tSet).result =
        .error (.appError .ErrCodeInternalError "查询IP信息失败" (some err)) ∧
      (∀ e, (QueryIP P s ip tGet tSet).result = .error e →
        GetCode e = .ErrCodeInternalError) ∧
      (∀ r, (QueryIP P s ip tGet tSet).result ≠ .ok r) ∧
      (QueryIP P s ip tGet tSet).state.cache = s.cache) ∧
    (∀ (info : IPInfo) (p : σ), P.Query s.provider ip = (.ok info, p) →
      info.IsValid = false →
      (QueryIP P s ip tGet tSet).result = .ok info ∧
      (QueryIP P s ip tGet tSet).state.cache = s.cache) := by
  constructor
  · intro err p hq
    rw [QueryIP_miss_error_eq P s ip tGet tSet err p hv hmiss hq]
    refine ⟨rfl, ?_, ?_, rfl⟩
    · intro e he
      simp only [Except.error.injEq] at he
      subst he
      rfl
    · intro r hr
      cases hr
  · intro info p hq hinv
    rw [QueryIP_miss_ok_eq P s ip tGet tSet info p hv hmiss hq]
    refine ⟨rfl, ?_⟩
    simp [hinv]

/-- Instance of `QueryIP_source_failure`: an address unknown to the sample database
comes back as the provider's invalid record and is not cached. -/
theorem QueryIP_source_failure_witness :
    (QueryIP ip2regionProvider sampleService "8.8.4.4" 0 0).result =
      .ok { IP := "8.8.4.4", IsValid := false, ErrorMessage := "IP查询失败: no region" } ∧
    (QueryIP ip2regionProvider sampleService "8.8.4.4" 0 0).state.cache =
      sampleService.cache :=
  (QueryIP_source_failure ip2regionProvider sampleService "8.8.4.4" 0 0
    (by decide) (by rfl)).2
    { IP := "8.8.4.4", IsValid := false, ErrorMessage := "IP查询失败: no region" }
    sampleService.provider (by rfl) (by rfl)

/-- A `QueryIP` changes no cache entry other than the one of the queried string. -/
theorem QueryIP_cache_frame {σ : Type} (P : QueryProvider σ) (s : IPService σ) (ip : String)
    (tGet tSet : Int) (c c1 : MemoryCache) (hc : s.cache = some c)
    (hc1 : (QueryIP P s ip tGet tSet).state.cache = some c1) (k : String) (hk : k ≠ ip) :
    c1.items.lookup k = c.items.lookup k := by
  rcases QueryIP_cache_cases P s ip tGet tSet with h | ⟨c0, info, p, h0, _, _, _, h1⟩
  · rw [h, hc] at hc1
    simp only [Option.some.injEq] at hc1
    rw [hc1]
  · rw [h0] at hc
    simp only [Option.some.injEq] at hc
    subst hc
    rw [h1] at hc1
    simp only [Option.some.injEq] at hc1
    rw [← hc1]
    exact lookup_Set_other c0 ip k info tSet hk

theorem ValidCached_QueryIP {σ : Type} (P : QueryProvider σ) (s : IPService σ) (ip : String)
    (tGet tSet : Int) (h : ValidCached P s) :
    ValidCached P (QueryIP P s ip tGet tSet).state := by
  rcases QueryIP_cache_cases P s ip tGet tSet with hc | ⟨c, info, p, hc, hval, hq, hv, hc1⟩
  · intro c k item hck
    rw [hc] at hck
    exact h c k item hck
  · intro c1 k item hck hl
    rw [hc1] at hck
    simp only [Option.some.injEq] at hck
    subst hck
    by_cases hk : k = ip
    · subst hk
      rw [lookup_Set_self] at hl
      simp only [Option.some.injEq] at hl
      rw [← hl]
      exact ⟨hv, hval, s.provider, p, hq⟩
    · rw [lookup_Set_other c ip k info tSet hk] at hl
      exact h c k item hc hl

theorem ValidCached_batchLoop {σ : Type} (P : QueryProvider σ) (clock : Nat → Int × Int) :
    ∀ (ips : List String) (i : Nat) (s : IPService σ), ValidCached P s →
      ValidCached P (batchLoop P clock ips i s).2.1 := by
  intro ips
  induction ips with
  | nil => intro i s h; exact h
  | cons ip rest ih =>
      intro i s h
      exact ih (i + 1) _ (ValidCached_QueryIP P s ip _ _ h)

theorem ValidCached_of_Reachable {σ : Type} (P : QueryProvider σ) (s : IPService σ)
    (h : Reachable P s) : ValidCached P s := by
  induction h with
  | init p cache =>
      intro c k item hc hl
      cases cache with
      | none => simp at hc
      | some ttl =>
          simp only [Option.map_some', Option.some.injEq] at hc
          subst hc
          simp [NewMemoryCache] at hl
  | query ip tGet tSet _ ih => exact ValidCached_QueryIP P _ ip tGet tSet ih
  | @batch s ips clock _ ih =>
      unfold BatchQueryIP
      split
      · exact ih
      · split
        · exact ih
        · apply ValidCached_batchLoop P
          intro c k item hc hl
          exact ih c k item hc hl
  | @sweep s now _ ih =>
      intro c k item hc hl
      cases hs : s.cache with
      | none => simp [hs] at hc
      | some c0 =>
          simp only [hs, Option.map_some', Option.some.injEq] at hc
          subst hc
          exact ih c0 k item hs (cleanupPass_lookup c0 now k item hl)
  | close _ ih =>
      intro c k item hc hl
      exact ih c k item hc hl

/-- C12: in every state reachable from a freshly constructed service, whatever the
provider does, every cache entry holds a record with validity true, stored under an
accepted address string for which the provider returned exactly that record; and a
`QueryIP` writes under no other key than the raw string it was called with. -/
theorem cache_holds_valid_records {σ : Type} (P : QueryProvider σ) (s : IPService σ)
    (h : Reachable P s) :
    (∀ (c : MemoryCache) (k : String) (item : CacheItem), s.cache = some c →
      c.items.lookup k = some item →
      item.Value.IsValid = true ∧ ValidateIP k = true ∧
        ∃ p p1 : σ, P.Query p k = (.ok item.Value, p1)) ∧
    (∀ (ip : String) (tGet tSet : Int) (c c1 : MemoryCache), s.cache = some c →
      (QueryIP P s ip tGet tSet).state.cache = some c1 →
      ∀ k, k ≠ ip → c1.items.lookup k = c.items.lookup k) :=
  ⟨ValidCached_of_Reachable P s h,
   fun ip tGet tSet c c1 hc hc1 k hk => QueryIP_cache_frame P s ip tGet tSet c c1 hc hc1 k hk⟩

/-- Instance of `cache_holds_valid_records`: after a batch with an invalid string, an
unknown address and a known one, the cache holds the one entry of the known address,
and that entry is valid. -/
theorem cache_holds_valid_records_witness :
    (BatchQueryIP ip2regionProvider sampleService ["not-an-ip", "8.8.4.4", "8.8.8.8"]
      (fun _ => (0, 0))).state.cache =
      some ((NewMemoryCache 10).Set "8.8.8.8"
        { IP := "8.8.8.8", Country := "美国", CountryCode := "US",
          Region := "加利福尼亚", ISP := "谷歌", IsValid := true } 0) ∧
    (({ IP := "8.8.8.8", Country := "美国", CountryCode := "US",
        Region := "加利福尼亚", ISP := "谷歌", IsValid := true } : IPInfo).IsValid = true ∧
      ValidateIP "8.8.8.8" = true ∧
      ∃ p p1 : IP2RegionProvider, ip2regionProvider.Query p "8.8.8.8" =
        (.ok { IP := "8.8.8.8", Country := "美国", CountryCode := "US",
               Region := "加利福尼亚", ISP := "谷歌", IsValid := true }, p1)) :=
  ⟨by rfl,
   (cache_holds_valid_records ip2regionProvider _
      (Reachable.batch ["not-an-ip", "8.8.4.4", "8.8.8.8"] (fun _ => (0, 0))
        (Reachable.init sampleService.provider (some 10)))).1
      ((NewMemoryCache 10).Set "8.8.8.8"
        { IP := "8.8.8.8", Country := "美国", CountryCode := "US",
          Region := "加利福尼亚", ISP := "谷歌", IsValid := true } 0)
      "8.8.8.8"
      { Value := { IP := "8.8.8.8", Country := "美国", CountryCode := "US",
                   Region := "加利福尼亚", ISP := "谷歌", IsValid := true },
        Expiration := 10 }
      (by rfl) (by rfl)⟩

/-! ### Closing a provider -/

theorem MockProvider_Close_iterate (m : MockProvider) (n : Nat) :
    (fun x => (MockProvider.Close x).2)^[n + 1] m = (MockProvider.Close m).2 := by
  induction n with
  | zero => rfl
  | succ k ih => rw [Function.iterate_succ_apply', ih]; rfl

theorem IP2RegionProvider_Close_iterate (p : IP2RegionProvider) (n : Nat) :
    (fun x => (IP2RegionProvider.Close x).2)^[n + 1] p = (IP2RegionProvider.Close p).2 := by
  induction n with
  | zero => rfl
  | succ k ih => rw [Function.iterate_succ_apply', ih]; rfl

/-- C14: for both providers `Close` never returns an error, calling it `n + 1` times
leaves the state of calling it once, and after `Close` every `Query` and every
`BatchQuery` returns an error and no record (and leaves the provider closed). -/
theorem Close_idempotent_then_unusable (m : MockProvider) (p : IP2RegionProvider) (n : Nat) :
    ((MockProvider.Close m).1 = none ∧
      (MockProvider.Close (MockProvider.Close m).2) = (none, (MockProvider.Close m).2) ∧
      (fun x => (MockProvider.Close x).2)^[n + 1] m = (MockProvider.Close m).2 ∧
      (∀ ip, (MockProvider.Close m).2.Query ip =
        (.error (.errorf "provider not initialized"), (MockProvider.Close m).2)) ∧
      (∀ ips, (MockProvider.Close m).2.BatchQuery ips =
        (.error (.errorf "provider not initialized"), (MockProvider.Close m).2))) ∧
    ((IP2RegionProvider.Close p).1 = none ∧
      (IP2RegionProvider.Close (IP2RegionProvider.Close p).2) =
        (none, (IP2RegionProvider.Close p).2) ∧
      (fun x => (IP2RegionProvider.Close x).2)^[n + 1] p = (IP2RegionProvider.Close p).2 ∧
      (∀ ip, (IP2RegionProvider.Close p).2.Query ip =
        (.error (.errorf "provider not initialized"), (IP2RegionProvider.Close p).2)) ∧
      (∀ ips, (IP2RegionProvider.Close p).2.BatchQuery ips =
        (.error (.errorf "provider not initialized"), (IP2RegionProvider.Close p).2))) := by
  refine ⟨⟨rfl, rfl, MockProvider_Close_iterate m n, ?_, ?_⟩,
    ⟨rfl, rfl, IP2RegionProvider_Close_iterate p n, ?_, ?_⟩⟩
  · intro ip; simp [MockProvider.Query, MockProvider.Close]
  · intro ips; simp [MockProvider.BatchQuery, MockProvider.Close]
  · intro ip; simp [IP2RegionProvider.Query, IP2RegionProvider.Close]
  · intro ips; simp [IP2RegionProvider.BatchQuery, IP2RegionProvider.Close]

/-! ### Writes, reads, size and removal in the cache -/

/-- C15: `Set k v` at time `t` leaves under `k` the value `v` with expiration exactly
`t + TTL`, whatever was stored before, and every other key as it was (the TTL setting
too). A read changes nothing: the answer of `Get` is determined by the stored
expiration alone (no earlier read can have extended it), and a `QueryIP` answered
from the cache leaves the cache identical. -/
theorem Set_overwrites_Get_reads {σ : Type} (P : QueryProvider σ) (s : IPService σ)
    (c : MemoryCache) (k : String) (v : IPInfo) (t : Int) :
    (c.Set k v t).items.lookup k = some { Value := v, Expiration := t + c.ttl } ∧
    (∀ k', k' ≠ k → (c.Set k v t).items.lookup k' = c.items.lookup k') ∧
    (c.Set k v t).ttl = c.ttl ∧
    (∀ k' item now, c.items.lookup k' = some item →
      c.Get k' now = if now > item.Expiration then none else some item.Value) ∧
    (∀ ip tGet tSet r, ValidateIP ip = true →
      s.cache.bind (fun c => c.Get ip tGet) = some r →
      (QueryIP P s ip tGet tSet).state.cache = s.cache) := by
  refine ⟨lookup_Set_self c k v t, fun k' hk => lookup_Set_other c k k' v t hk, rfl, ?_, ?_⟩
  · intro k' item now hl
    simp [MemoryCache.Get, hl]
  · intro ip tGet tSet r hv hb
    rw [QueryIP_hit_eq P s ip tGet tSet r hv hb]

theorem Size_eq_keys (c : MemoryCache) : c.Size = c.items.keys.length := by
  simp [MemoryCache.Size, AList.keys, List.keys]

/-- C16: `Size` is the number of stored keys, expired or not: `Set` of a key that is not
stored adds one, `Set` of a stored key leaves it unchanged, and an entry that `Get`
no longer returns because its expiration has passed is still counted. -/
theorem Size_counts_stored (c : MemoryCache) (k : String) (v : IPInfo) (t : Int) :
    (c.Size = c.items.keys.length ∧ c.items.keys.Nodup) ∧
    (c.items.lookup k = none → (c.Set k v t).Size = c.Size + 1) ∧
    (∀ item, c.items.lookup k = some item → (c.Set k v t).Size = c.Size) ∧
    (∀ k' item now, c.items.lookup k' = some item → item.Expiration < now →
      c.Get k' now = none ∧ 0 < c.Size) ∧
    (∀ now, t + c.ttl < now →
      (c.Set k v t).Get k now = none ∧ 0 < (c.Set k v t).Size) := by
  have hmem : ∀ (c : MemoryCache) k' item, c.items.lookup k' = some item → 0 < c.Size := by
    intro c k' item hl
    have h1 : item ∈ c.items.lookup k' := hl
    rw [AList.mem_lookup_iff] at h1
    exact List.length_pos_of_mem h1
  refine ⟨⟨Size_eq_keys c, c.items.keys_nodup⟩, ?_, ?_, ?_, ?_⟩
  · intro hnone
    have hk : k ∉ c.items := AList.lookup_eq_none.mp hnone
    simp only [MemoryCache.Size, MemoryCache.Set, AList.insert_entries_of_neg hk,
      List.length_cons]
  · intro item hl
    have hk : k ∈ c.items.keys := by
      have : (c.items.lookup k).isSome := by simp [hl]
      exact AList.mem_keys.mp (AList.lookup_isSome.mp this)
    rw [Size_eq_keys, Size_eq_keys]
    simp only [MemoryCache.Set, AList.keys_insert, List.length_cons]
    rw [List.length_erase_of_mem hk]
    have : 0 < c.items.keys.length := List.length_pos_of_mem hk
    omega
  · intro k' item now hl hlt
    exact ⟨(Get_eq_none_iff c k' now).mpr (Or.inr ⟨item, hl, hlt⟩), hmem c k' item hl⟩
  · intro now hlt
    have hl := lookup_Set_self c k v t
    exact ⟨(Get_eq_none_iff _ k now).mpr (Or.inr ⟨_, hl, hlt⟩), hmem _ k _ hl⟩

/-- C19: after `Delete k`, `Get k` finds nothing at any time and every other key is as
before; deleting a key that is not stored changes nothing; after `Clear`, `Get` finds
nothing for any key and `Size` is 0. -/
theorem Delete_and_Clear (c : MemoryCache) (k : String) :
    (∀ now, (c.Delete k).Get k now = none) ∧
    (∀ k', k' ≠ k → (c.Delete k).items.lookup k' = c.items.lookup k') ∧
    (c.items.lookup k = none → c.Delete k = c) ∧
    (∀ k' now, c.Clear.Get k' now = none) ∧
    c.Clear.Size = 0 := by
  refine ⟨?_, ?_, ?_, ?_, rfl⟩
  · intro now
    simp [MemoryCache.Get, MemoryCache.Delete]
  · intro k' hk
    simp [MemoryCache.Delete, AList.lookup_erase_ne hk]
  · intro hnone
    have hk : k ∉ c.items.keys := AList.mem_keys.not.mp (AList.lookup_eq_none.mp hnone)
    have : c.items.erase k = c.items := by
      apply AList.ext
      exact List.kerase_of_not_mem_keys hk
    cases c
    simp only [MemoryCache.Delete] at this ⊢
    rw [this]
  · intro k' now
    simp [MemoryCache.Get, MemoryCache.Clear]

/-! ### The sweep -/

theorem sweep_fold_entries (now : Int) :
    ∀ (todo done : List (Sigma fun _ : String => CacheItem))
      (m : AList (fun _ : String => CacheItem)),
      m.entries = done.filter (fun e => ¬ (now > e.2.Expiration)) ++ todo →
      (done ++ todo).NodupKeys →
      (todo.foldl (fun m e => if now > e.2.Expiration then m.erase e.1 else m) m).entries =
        (done ++ todo).filter (fun e => ¬ (now > e.2.Expiration)) := by
  intro todo
  induction todo with
  | nil =>
      intro done m hm _
      simpa using hm
  | cons e rest ih =>
      intro done m hm hnd
      have hnd' : (done ++ [e] ++ rest).NodupKeys := by
        simpa [List.append_assoc] using hnd
      have hres : (done ++ e :: rest) = done ++ [e] ++ rest := by simp
      rw [List.foldl_cons, hres]
      by_cases hexp : now > e.2.Expiration
      · rw [if_pos hexp]
        apply ih (done ++ [e]) (m.erase e.1) _ hnd'
        have hnot : e.1 ∉ (done.filter (fun e => ¬ (now > e.2.Expiration))).keys := by
          intro hmem
          have hmem' : e.1 ∈ done.keys := by
            obtain ⟨b, hb⟩ := List.exists_of_mem_keys hmem
            exact List.mem_keys.mpr ⟨b, List.mem_of_mem_filter hb⟩
          have hk : (done.keys ++ (e :: rest).keys).Nodup := by
            have := hnd
            unfold List.NodupKeys at this
            simpa [List.keys] using this
          have hdis := (List.nodup_append.mp hk).2.2
          exact hdis hmem' (by simp [List.keys])
        show List.kerase e.1 m.entries = _
        rw [hm, List.kerase_append_right hnot, List.kerase_cons_eq rfl]
        simp [List.filter_append, hexp]
      · rw [if_neg hexp]
        apply ih (done ++ [e]) m _ hnd'
        rw [hm]
        have hle : now ≤ e.2.Expiration := not_lt.mp hexp
        simp [List.filter_append, hle]

/-- The loop of the sweep computes the cache without the expired entries. -/
theorem cleanupSweep_eq_cleanupPass (c : MemoryCache) (now : Int) :
    c.cleanupSweep now = c.cleanupPass now := by
  have h := sweep_fold_entries now c.items.entries [] c.items (by simp)
    (by simpa using c.items.nodupKeys)
  unfold MemoryCache.cleanupSweep MemoryCache.cleanupPass
  congr 1
  apply AList.ext
  simpa using h

theorem cleanupPass_lookup_iff (c : MemoryCache) (now : Int) (k : String) (item : CacheItem) :
    (c.cleanupPass now).items.lookup k = some item ↔
      c.items.lookup k = some item ∧ ¬ (item.Expiration < now) := by
  have h1 : (c.cleanupPass now).items.lookup k = some item ↔
      (⟨k, item⟩ : Sigma fun _ : String => CacheItem) ∈ (c.cleanupPass now).items.entries :=
    AList.mem_lookup_iff
  have h2 : c.items.lookup k = some item ↔
      (⟨k, item⟩ : Sigma fun _ : String => CacheItem) ∈ c.items.entries :=
    AList.mem_lookup_iff
  rw [h1, h2]
  simp [MemoryCache.cleanupPass, List.mem_filter]

/-- C17: one pass of the sweep at time `now` removes every entry whose expiration is
earlier than `now` and keeps every other entry with its value and expiration; after
it no stored entry has an expiration earlier than `now`, and `Size` is the number of
entries that were not expired. -/
theorem cleanupSweep_removes_expired (c : MemoryCache) (now : Int) :
    (∀ k item, c.items.lookup k = some item → item.Expiration < now →
      (c.cleanupSweep now).items.lookup k = none) ∧
    (∀ k item, c.items.lookup k = some item → ¬ (item.Expiration < now) →
      (c.cleanupSweep now).items.lookup k = some item) ∧
    (∀ k, c.items.lookup k = none → (c.cleanupSweep now).items.lookup k = none) ∧
    (∀ k item, (c.cleanupSweep now).items.lookup k = some item →
      ¬ (item.Expiration < now)) ∧
    (c.cleanupSweep now).Size =
      c.items.entries.countP (fun e => ¬ (e.2.Expiration < now)) ∧
    (c.cleanupSweep now).ttl = c.ttl := by
  rw [cleanupSweep_eq_cleanupPass]
  refine ⟨?_, ?_, ?_, ?_, ?_, rfl⟩
  · intro k item hl hexp
    cases h : (c.cleanupPass now).items.lookup k with
    | none => rfl
    | some item1 =>
        have := (cleanupPass_lookup_iff c now k item1).mp h
        rw [hl] at this
        simp only [Option.some.injEq] at this
        rw [this.1] at hexp
        exact absurd hexp this.2
  · intro k item hl hlive
    exact (cleanupPass_lookup_iff c now k item).mpr ⟨hl, hlive⟩
  · intro k hl
    cases h : (c.cleanupPass now).items.lookup k with
    | none => rfl
    | some item1 =>
        have := (cleanupPass_lookup_iff c now k item1).mp h
        rw [hl] at this
        cases this.1
  · intro k item h
    exact ((cleanupPass_lookup_iff c now k item).mp h).2
  · simp [MemoryCache.Size, MemoryCache.cleanupPass, List.countP_eq_length_filter]

/-- For a TTL of at least two nanoseconds the sweep period is positive and the ticker
starts. -/
theorem cleanupTicker_of_two_le (ttl : Int) (h : 2 ≤ ttl) :
    0 < (NewMemoryCache ttl).cleanupPeriod ∧
    (NewMemoryCache ttl).cleanupTicker = .ok (ttl.tdiv 2) := by
  have hpos : 0 < ttl.tdiv 2 := by
    have h0 : (0 : Int) ≤ ttl := by omega
    rw [Int.tdiv_eq_ediv h0 (by decide)]
    omega
  refine ⟨hpos, ?_⟩
  simp only [MemoryCache.cleanupTicker, NewTicker, MemoryCache.cleanupPeriod, NewMemoryCache]
  rw [if_neg (by omega)]

/-- C18 (what the code does): the period is `TTL / 2` without any lower bound, so with
a TTL of 0 (and of 1 nanosecond) the sweep asks for a ticker of period 0, which
`time.NewTicker` refuses by panicking. -/
theorem cleanupTicker_zero_period :
    (NewMemoryCache 0).cleanupPeriod = 0 ∧
    (NewMemoryCache 0).cleanupTicker = .error "non-positive interval for NewTicker" ∧
    (NewMemoryCache 1).cleanupPeriod = 0 ∧
    (NewMemoryCache 1).cleanupTicker = .error "non-positive interval for NewTicker" ∧
    (∀ db, (NewIPService (.ok db) true 0).toOption.map (fun s => s.cache.map
      (fun c => c.cleanupPeriod)) = some (some 0)) :=
  ⟨by decide, by rfl, by decide, by rfl, fun _ => by rfl⟩

/-! ### The record invariant -/

theorem append_ne_empty (a b : String) (ha : a ≠ "") : a ++ b ≠ "" := by
  intro h
  have hl : (a ++ b).length = 0 := by rw [h]; rfl
  rw [String.length_append] at hl
  have hz : a.length = 0 := by omega
  apply ha
  have hd : a.data = [] := List.length_eq_zero.mp hz
  cases a
  simp only at hd
  rw [hd]

theorem errorRecord_invariant (ip msg : String) (h : msg ≠ "") :
    recordInvariant { IP := ip, IsValid := false, ErrorMessage := msg } = true := by
  simp [recordInvariant, h]

theorem MockProvider_Query_invariant (m m1 : MockProvider) (ip : String) (info : IPInfo)
    (h : m.Query ip = (.ok info, m1)) : recordInvariant info = true := by
  unfold MockProvider.Query at h
  split at h
  · cases h
  · split at h
    · simp only [Prod.mk.injEq, Except.ok.injEq] at h
      rw [← h.1]; exact errorRecord_invariant ip _ (by decide)
    · split at h
      · simp only [Prod.mk.injEq, Except.ok.injEq] at h
        rw [← h.1]; rfl
      · simp only [Prod.mk.injEq, Except.ok.injEq] at h
        rw [← h.1]; rfl

theorem MockProvider_Query_error (m m1 : MockProvider) (ip : String) (err : GoError)
    (h : m.Query ip = (.error err, m1)) : err.Error ≠ "" := by
  unfold MockProvider.Query at h
  split at h
  · simp only [Prod.mk.injEq, Except.error.injEq] at h
    rw [← h.1]; decide
  · split at h
    · cases h
    · split at h <;> cases h

theorem IP2RegionProvider_Query_invariant (p p1 : IP2RegionProvider) (ip : String)
    (info : IPInfo) (h : p.Query ip = (.ok info, p1)) : recordInvariant info = true := by
  unfold IP2RegionProvider.Query at h
  split at h
  · cases h
  · split at h
    · simp only [Prod.mk.injEq, Except.ok.injEq] at h
      rw [← h.1]; exact errorRecord_invariant ip _ (by decide)
    · split at h
      · simp only [Prod.mk.injEq, Except.ok.injEq] at h
        rw [← h.1]; rfl
      · split at h
        · rename_i err _
          simp only [Prod.mk.injEq, Except.ok.injEq] at h
          rw [← h.1]
          have hne : "IP查询失败: " ++ err.Error ≠ "" := append_ne_empty _ _ (by decide)
          simp [recordInvariant, hne]
        · simp only [Prod.mk.injEq, Except.ok.injEq] at h
          rw [← h.1]; rfl

theorem IP2RegionProvider_Query_error (p p1 : IP2RegionProvider) (ip : String)
    (err : GoError) (h : p.Query ip = (.error err, p1)) : err.Error ≠ "" := by
  unfold IP2RegionProvider.Query at h
  split at h
  · simp only [Prod.mk.injEq, Except.error.injEq] at h
    rw [← h.1]; decide
  · split at h
    · cases h
    · split at h
      · cases h
      · split at h <;> cases h

theorem MockProvider_batchLoop_invariant :
    ∀ (ips : List String) (m : MockProvider),
      ∀ r ∈ (MockProvider.batchLoop ips m).1, recordInvariant r = true := by
  intro ips
  induction ips with
  | nil => intro m r hr; cases hr
  | cons ip rest ih =>
      intro m r hr
      simp only [MockProvider.batchLoop, List.mem_cons] at hr
      rcases hr with rfl | hr
      · cases hq : m.Query ip with
        | mk res m1 =>
            cases res with
            | ok info => exact MockProvider_Query_invariant m m1 ip info hq
            | error err =>
                exact errorRecord_invariant ip _ (MockProvider_Query_error m m1 ip err hq)
      · exact ih _ r hr

theorem IP2RegionProvider_batchLoop_invariant :
    ∀ (ips : List String) (p : IP2RegionProvider),
      ∀ r ∈ (IP2RegionProvider.batchLoop ips p).1, recordInvariant r = true := by
  intro ips
  induction ips with
  | nil => intro p r hr; cases hr
  | cons ip rest ih =>
      intro p r hr
      simp only [IP2RegionProvider.batchLoop, List.mem_cons] at hr
      rcases hr with rfl | hr
      · cases hq : p.Query ip with
        | mk res p1 =>
            cases res with
            | ok info => exact IP2RegionProvider_Query_invariant p p1 ip info hq
            | error err =>
                exact errorRecord_invariant ip _
                  (IP2RegionProvider_Query_error p p1 ip err hq)
      · exact ih _ r hr

/-- In a state whose cache holds provider answers, with a provider that keeps the
record invariant, the record of a successful `QueryIP` satisfies it. -/
theorem QueryIP_invariant {σ : Type} (P : QueryProvider σ) (hP : RecordsOK P)
    (s : IPService σ) (hs : ValidCached P s) (ip : String) (tGet tSet : Int) (info : IPInfo)
    (h : (QueryIP P s ip tGet tSet).result = .ok info) : recordInvariant info = true := by
  by_cases hval : ValidateIP ip = true
  · cases hb : s.cache.bind (fun c => c.Get ip tGet) with
    | some cached =>
        rw [QueryIP_hit_eq P s ip tGet tSet cached hval hb] at h
        simp only [Except.ok.injEq] at h
        subst h
        cases hc : s.cache with
        | none => simp [hc] at hb
        | some c =>
            simp only [hc, Option.some_bind] at hb
            unfold MemoryCache.Get at hb
            cases hl : c.items.lookup ip with
            | none => simp [hl] at hb
            | some item =>
                rw [hl] at hb
                simp only at hb
                split at hb
                · cases hb
                · simp only [Option.some.injEq] at hb
                  obtain ⟨_, _, p, p1, hq⟩ := hs c ip item hc hl
                  rw [← hb]
                  exact hP p p1 ip _ hq
    | none =>
        cases hq : P.Query s.provider ip with
        | mk res p =>
            cases res with
            | error err =>
                rw [QueryIP_miss_error_eq P s ip tGet tSet err p hval hb hq] at h
                cases h
            | ok info1 =>
                rw [QueryIP_miss_ok_eq P s ip tGet tSet info1 p hval hb hq] at h
                simp only [Except.ok.injEq] at h
                subst h
                exact hP _ _ _ _ hq
  · have hval' : ValidateIP ip = false := by simpa using hval
    rw [QueryIP_invalid_eq P s ip tGet tSet hval'] at h
    cases h

theorem batchLoop_invariant {σ : Type} (P : QueryProvider σ) (hP : RecordsOK P)
    (clock : Nat → Int × Int) :
    ∀ (ips : List String) (i : Nat) (s : IPService σ), ValidCached P s →
      ∀ r ∈ (batchLoop P clock ips i s).1, recordInvariant r = true := by
  intro ips
  induction ips with
  | nil => intro i s _ r hr; cases hr
  | cons ip rest ih =>
      intro i s hs r hr
      simp only [batchLoop, List.mem_cons] at hr
      rcases hr with rfl | hr
      · cases hres : (QueryIP P s ip (clock i).1 (clock i).2).result with
        | ok info => exact QueryIP_invariant P hP s hs ip _ _ info hres
        | error err =>
            exact errorRecord_invariant ip _ (QueryIP_error_message P s ip _ _ err hres)
      · exact ih (i + 1) _ (ValidCached_QueryIP P s ip _ _ hs) r hr

theorem BatchQueryIP_invariant {σ : Type} (P : QueryProvider σ) (hP : RecordsOK P)
    (s : IPService σ) (hs : Reachable P s) (ips : List String) (clock : Nat → Int × Int)
    (rs : List IPInfo) (h : (BatchQueryIP P s ips clock).result = .ok rs) :
    ∀ r ∈ rs, recordInvariant r = true := by
  unfold BatchQueryIP at h
  split at h
  · cases h
  · split at h
    · cases h
    · simp only [Except.ok.injEq] at h
      rw [← h]
      apply batchLoop_invariant P hP clock ips 0
      intro c k item hc hl
      exact ValidCached_of_Reachable P s hs c k item hc hl

/-- C20: every record produced by `Query` or `BatchQuery` of either provider, and every
record returned by `BatchQueryIP` of a service over either provider (in any reachable
state), satisfies the record invariant: when validity is false the geographic fields
are empty, the coordinates 0 and the error message non-empty; when it is true the
error message is empty. -/
theorem records_satisfy_invariant :
    (∀ (m m1 : MockProvider) (ip : String) (info : IPInfo),
      m.Query ip = (.ok info, m1) → recordInvariant info = true) ∧
    (∀ (p p1 : IP2RegionProvider) (ip : String) (info : IPInfo),
      p.Query ip = (.ok info, p1) → recordInvariant info = true) ∧
    (∀ (m m1 : MockProvider) (ips : List String) (rs : List IPInfo),
      m.BatchQuery ips = (.ok rs, m1) → ∀ r ∈ rs, recordInvariant r = true) ∧
    (∀ (p p1 : IP2RegionProvider) (ips : List String) (rs : List IPInfo),
      p.BatchQuery ips = (.ok rs, p1) → ∀ r ∈ rs, recordInvariant r = true) ∧
    (∀ (s : IPService MockProvider) (ips : List String) (clock : Nat → Int × Int)
      (rs : List IPInfo), Reachable mockProvider s →
      (BatchQueryIP mockProvider s ips clock).result = .ok rs →
      ∀ r ∈ rs, recordInvariant r = true) ∧
    (∀ (s : IPService IP2RegionProvider) (ips : List String) (clock : Nat → Int × Int)
      (rs : List IPInfo), Reachable ip2regionProvider s →
      (BatchQueryIP ip2regionProvider s ips clock).result = .ok rs →
      ∀ r ∈ rs, recordInvariant r = true) := by
  refine ⟨fun m m1 ip info h => MockProvider_Query_invariant m m1 ip info h,
    fun p p1 ip info h => IP2RegionProvider_Query_invariant p p1 ip info h, ?_, ?_, ?_, ?_⟩
  · intro m m1 ips rs h
    unfold MockProvider.BatchQuery at h
    split at h
    · cases h
    · simp only [Prod.mk.injEq, Except.ok.injEq] at h
      rw [← h.1]
      exact MockProvider_batchLoop_invariant ips m
  · intro p p1 ips rs h
    unfold IP2RegionProvider.BatchQuery at h
    split at h
    · cases h
    · simp only [Prod.mk.injEq, Except.ok.injEq] at h
      rw [← h.1]
      exact IP2RegionProvider_batchLoop_invariant ips p
  · intro s ips clock rs hs h
    exact BatchQueryIP_invariant mockProvider
      (fun m m1 ip info hq => MockProvider_Query_invariant m m1 ip info hq) s hs ips clock rs h
  · intro s ips clock rs hs h
    exact BatchQueryIP_invariant ip2regionProvider
      (fun p p1 ip info hq => IP2RegionProvider_Query_invariant p p1 ip info hq)
      s hs ips clock rs h

/-! ### The shape of a parsed address -/

theorem parseIPv4Loop_bytes :
    ∀ (s : List Char) (prev : Option Char) (val pos digLen : Nat) (fields r : List Nat),
      parseIPv4Loop s prev val pos digLen fields = some r →
      val < 256 → (∀ x ∈ fields, x < 256) → fields.length = pos → pos ≤ 3 →
      r.length = 4 ∧ ∀ x ∈ r, x < 256 := by
  intro s
  induction s with
  | nil =>
      intro prev val pos digLen fields r h hval hf hlen hpos
      unfold parseIPv4Loop at h
      split at h
      · cases h
      · simp only [Option.some.injEq] at h
        subst h
        refine ⟨by simp; omega, ?_⟩
        intro x hx
        rcases List.mem_append.mp hx with hx | hx
        · exact hf x hx
        · simp only [List.mem_singleton] at hx
          omega
  | cons c rest ih =>
      intro prev val pos digLen fields r h hval hf hlen hpos
      unfold parseIPv4Loop at h
      cases hd : decVal c with
      | some d =>
          rw [hd] at h
          simp only at h
          split at h
          · cases h
          · split at h
            · cases h
            · exact ih _ _ _ _ _ _ h (by omega) hf hlen hpos
      | none =>
          rw [hd] at h
          simp only at h
          split at h
          · split at h
            · cases h
            · split at h
              · cases h
              · refine ih _ _ _ _ _ _ h (by omega) ?_ (by simp; omega) (by omega)
                intro x hx
                rcases List.mem_append.mp hx with hx | hx
                · exact hf x hx
                · simp only [List.mem_singleton] at hx
                  omega
          · cases h

theorem scanHex_acc :
    ∀ (s : List Char) (off acc off1 acc1 : Nat) (rest : List Char),
      scanHex s off acc = some (off1, acc1, rest) → acc ≤ 65535 → acc1 ≤ 65535 := by
  intro s
  induction s with
  | nil =>
      intro off acc off1 acc1 rest h hacc
      simp only [scanHex, Option.some.injEq, Prod.mk.injEq] at h
      omega
  | cons x xs ih =>
      intro off acc off1 acc1 rest h hacc
      unfold scanHex at h
      cases hv : hexVal x with
      | none =>
          rw [hv] at h
          simp only [Option.some.injEq, Prod.mk.injEq] at h
          omega
      | some v =>
          rw [hv] at h
          simp only at h
          split at h
          · cases h
          · split at h
            · cases h
            · exact ih _ _ _ _ _ h (by omega)

theorem parseIPv6Loop_bytes :
    ∀ (fuel : Nat) (s : List Char) (ip : List Nat) (e : Option Nat)
      (rest : List Char) (ip1 : List Nat) (e1 : Option Nat),
      parseIPv6Loop fuel s ip e = some (rest, ip1, e1) →
      ip.length % 2 = 0 → ip.length ≤ 16 → (∀ x ∈ ip, x < 256) →
      ip1.length ≤ 16 ∧ ∀ x ∈ ip1, x < 256 := by
  intro fuel
  induction fuel with
  | zero =>
      intro s ip e rest ip1 e1 h _ hlen hb
      simp only [parseIPv6Loop, Option.some.injEq, Prod.mk.injEq] at h
      rw [← h.2.1]
      exact ⟨hlen, hb⟩
  | succ n ih =>
      intro s ip e rest ip1 e1 h heven hlen hb
      unfold parseIPv6Loop at h
      by_cases hlt : ip.length < 16
      · rw [if_pos hlt] at h
        cases hsc : scanHex s 0 0 with
        | none => rw [hsc] at h; cases h
        | some t =>
            obtain ⟨off, acc, rst⟩ := t
            rw [hsc] at h
            have hacc : acc ≤ 65535 := scanHex_acc _ _ _ _ _ _ hsc (by omega)
            have hb2 : ∀ x ∈ ip ++ [acc / 256, acc % 256], x < 256 := by
              intro x hx
              rcases List.mem_append.mp hx with hx | hx
              · exact hb x hx
              · simp only [List.mem_cons, List.mem_singleton, List.not_mem_nil, or_false] at hx
                rcases hx with rfl | rfl <;> omega
            have hlen2 : (ip ++ [acc / 256, acc % 256]).length ≤ 16 := by
              simp only [List.length_append, List.length_cons, List.length_nil]; omega
            have heven2 : (ip ++ [acc / 256, acc % 256]).length % 2 = 0 := by
              simp only [List.length_append, List.length_cons, List.length_nil]; omega
            simp only at h
            by_cases hoff : off = 0
            · rw [if_pos hoff] at h; cases h
            · rw [if_neg hoff] at h
              by_cases hdot : rst.head? = some '.'
              · rw [if_pos hdot] at h
                split at h
                · cases h
                · rename_i hroom
                  split at h
                  · cases h
                  · rename_i hroom2
                    cases hv4 : parseIPv4Fields s with
                    | none => rw [hv4] at h; cases h
                    | some v4 =>
                        rw [hv4] at h
                        simp only [Option.some.injEq, Prod.mk.injEq] at h
                        obtain ⟨h4len, h4b⟩ := parseIPv4Loop_bytes s _ _ _ _ _ _ hv4
                          (by omega) (by simp) rfl (by omega)
                        rw [← h.2.1]
                        refine ⟨by simp only [List.length_append]; omega, ?_⟩
                        intro x hx
                        rcases List.mem_append.mp hx with hx | hx
                        · exact hb x hx
                        · exact h4b x hx
              · rw [if_neg hdot] at h
                cases rst with
                | nil =>
                    simp only [Option.some.injEq, Prod.mk.injEq] at h
                    rw [← h.2.1]
                    exact ⟨hlen2, hb2⟩
                | cons c rest1 =>
                    simp only at h
                    by_cases hc : c = ':'
                    · rw [if_neg (by simpa using hc)] at h
                      cases rest1 with
                      | nil => cases h
                      | cons c1 rest2 =>
                          simp only at h
                          by_cases hc1 : c1 = ':'
                          · rw [if_pos hc1] at h
                            split at h
                            · cases h
                            · cases rest2 with
                              | nil =>
                                  simp only [Option.some.injEq, Prod.mk.injEq] at h
                                  rw [← h.2.1]
                                  exact ⟨hlen2, hb2⟩
                              | cons c2 rest3 =>
                                  simp only at h
                                  exact ih _ _ _ _ _ _ h heven2 hlen2 hb2
                          · rw [if_neg hc1] at h
                            exact ih _ _ _ _ _ _ h heven2 hlen2 hb2
                    · rw [if_pos (by simpa using hc)] at h; cases h
      · rw [if_neg hlt] at h
        simp only [Option.some.injEq, Prod.mk.injEq] at h
        rw [← h.2.1]
        exact ⟨hlen, hb⟩

theorem expandEllipsis_bytes (zone : List Char) (rest : List Char) (ip : List Nat)
    (e : Option Nat) (a : Addr) (h : expandEllipsis zone (some (rest, ip, e)) = some a)
    (hlen : ip.length ≤ 16) (hb : ∀ x ∈ ip, x < 256) :
    a.As16.length = 16 ∧ ∀ x ∈ a.As16, x < 256 := by
  simp only [expandEllipsis] at h
  split at h
  · cases h
  · split at h
    · rename_i hlt
      split at h
      · cases h
      · rename_i e0
        simp only [Option.some.injEq] at h
        rw [← h]
        simp only [Addr.As16]
        constructor
        · simp only [List.length_append, List.length_take, List.length_replicate,
            List.length_drop]
          omega
        · intro x hx
          simp only [List.mem_append, List.mem_replicate] at hx
          rcases hx with (hx | hx) | hx
          · exact hb x (List.mem_of_mem_take hx)
          · omega
          · exact hb x (List.mem_of_mem_drop hx)
    · split at h
      · cases h
      · simp only [Option.some.injEq] at h
        rw [← h]
        simp only [Addr.As16]
        exact ⟨by omega, hb⟩

theorem parseIPv6_bytes (input : List Char) (a : Addr) (h : parseIPv6 input = some a) :
    a.As16.length = 16 ∧ ∀ x ∈ a.As16, x < 256 := by
  unfold parseIPv6 at h
  simp only at h
  split at h
  · cases h
  · have hloop : ∀ (s : List Char) (e : Option Nat) (zone : List Char),
        expandEllipsis zone (parseIPv6Loop 8 s [] e) = some a →
        a.As16.length = 16 ∧ ∀ x ∈ a.As16, x < 256 := by
      intro s e zone he
      obtain ⟨_, ip, e1, hr⟩ := expandEllipsis_some _ _ _ he
      obtain ⟨hl, hb⟩ := parseIPv6Loop_bytes _ _ _ _ _ _ _ hr (by simp) (by simp) (by simp)
      rw [hr] at he
      exact expandEllipsis_bytes zone [] ip e1 a he hl hb
    split at h
    · split at h
      · split at h
        · simp only [Option.some.injEq] at h
          rw [← h]
          simp only [Addr.As16]
          refine ⟨by simp, ?_⟩
          intro x hx
          simp only [List.mem_replicate] at hx
          omega
        · exact hloop _ _ _ h
      · exact hloop _ _ _ h
    · exact hloop _ _ _ h

/-- A parsed address is a list of sixteen bytes. -/
theorem ParseIP_bytes (s : List Char) (ip : List Nat) (h : ParseIP s = some ip) :
    ip.length = 16 ∧ ∀ x ∈ ip, x < 256 := by
  unfold ParseIP at h
  cases ha : ParseAddr s with
  | none => rw [ha] at h; cases h
  | some a =>
      rw [ha] at h
      simp only at h
      split at h
      · cases h
      · simp only [Option.some.injEq] at h
        subst h
        unfold ParseAddr at ha
        split at ha
        · split at ha
          · cases hv : parseIPv4Fields s with
            | none => rw [hv] at ha; cases ha
            | some v =>
                rw [hv] at ha
                simp only [Option.map_some', Option.some.injEq] at ha
                subst ha
                obtain ⟨h4len, h4b⟩ := parseIPv4Loop_bytes s _ _ _ _ _ _ hv
                  (by omega) (by simp) rfl (by omega)
                simp only [Addr.As16, v4InV6Prefix]
                refine ⟨by simp only [List.length_append, List.length_cons,
                  List.length_nil]; omega, ?_⟩
                intro x hx
                rcases List.mem_append.mp hx with hx | hx
                · simp only [List.mem_cons, List.mem_singleton, List.not_mem_nil,
                    or_false] at hx
                  omega
                · exact h4b x hx
          · split at ha
            · exact parseIPv6_bytes s a ha
            · cases ha
        · cases ha

/-! ### Reserved ranges -/

theorem allPrivate_nets :
    allPrivate.map (fun cidr => (ParseCIDR cidr.data).map (fun r => r.2)) =
      [some ⟨[10, 0, 0, 0], [255, 0, 0, 0]⟩,
       some ⟨[172, 16, 0, 0], [255, 240, 0, 0]⟩,
       some ⟨[192, 168, 0, 0], [255, 255, 0, 0]⟩,
       some ⟨[127, 0, 0, 0], [255, 0, 0, 0]⟩,
       some ⟨[169, 254, 0, 0], [255, 255, 0, 0]⟩,
       some ⟨[252, 0, 0, 0, 0, 0, 0, 0, 0, 0, 0, 0, 0, 0, 0, 0],
             [254, 0, 0, 0, 0, 0, 0, 0, 0, 0, 0, 0, 0, 0, 0, 0]⟩,
       some ⟨[254, 128, 0, 0, 0, 0, 0, 0, 0, 0, 0, 0, 0, 0, 0, 0],
             [255, 192, 0, 0, 0, 0, 0, 0, 0, 0, 0, 0, 0, 0, 0, 0]⟩,
       some ⟨[0, 0, 0, 0, 0, 0, 0, 0, 0, 0, 0, 0, 0, 0, 0, 1],
             [255, 255, 255, 255, 255, 255, 255, 255, 255, 255, 255, 255, 255, 255, 255,
              255]⟩] := by
  decide

theorem land_255 (x : Nat) (h : x < 256) : x &&& 255 = x := by
  have := Nat.and_pow_two_sub_one_eq_mod x 8
  simp only [Nat.reducePow, Nat.add_one_sub_one] at this
  rw [show (255 : Nat) = 256 - 1 from rfl, this]
  exact Nat.mod_eq_of_lt h

set_option maxRecDepth 100000 in
theorem land_240 : ∀ x, x < 256 → (x &&& 240 = 16 ↔ (16 ≤ x ∧ x ≤ 31)) := by decide
set_option maxRecDepth 100000 in
theorem land_254 : ∀ x, x < 256 → (x &&& 254 = 252 ↔ x / 2 = 126) := by decide
set_option maxRecDepth 100000 in
theorem land_192 : ∀ x, x < 256 → (x &&& 192 = 128 ↔ x / 64 = 2) := by decide

theorem private_any_eq (ip : List Nat) :
    (allPrivate.any (fun cidr =>
      match ParseCIDR cidr.data with
      | some (_, subnet) => subnet.Contains ip
      | none => false)) =
    ((⟨[10, 0, 0, 0], [255, 0, 0, 0]⟩ : IPNet).Contains ip ||
     (⟨[172, 16, 0, 0], [255, 240, 0, 0]⟩ : IPNet).Contains ip ||
     (⟨[192, 168, 0, 0], [255, 255, 0, 0]⟩ : IPNet).Contains ip ||
     (⟨[127, 0, 0, 0], [255, 0, 0, 0]⟩ : IPNet).Contains ip ||
     (⟨[169, 254, 0, 0], [255, 255, 0, 0]⟩ : IPNet).Contains ip ||
     (⟨[252, 0, 0, 0, 0, 0, 0, 0, 0, 0, 0, 0, 0, 0, 0, 0],
       [254, 0, 0, 0, 0, 0, 0, 0, 0, 0, 0, 0, 0, 0, 0, 0]⟩ : IPNet).Contains ip ||
     (⟨[254, 128, 0, 0, 0, 0, 0, 0, 0, 0, 0, 0, 0, 0, 0, 0],
       [255, 192, 0, 0, 0, 0, 0, 0, 0, 0, 0, 0, 0, 0, 0, 0]⟩ : IPNet).Contains ip ||
     (⟨[0, 0, 0, 0, 0, 0, 0, 0, 0, 0, 0, 0, 0, 0, 0, 1],
       [255, 255, 255, 255, 255, 255, 255, 255, 255, 255, 255, 255, 255, 255, 255,
        255]⟩ : IPNet).Contains ip) := by
  have h : (fun cidr : String =>
      match ParseCIDR cidr.data with
      | some (_, subnet) => subnet.Contains ip
      | none => false) =
      (fun o : Option IPNet => match o with
        | some n => n.Contains ip
        | none => false) ∘ (fun cidr : String => (ParseCIDR cidr.data).map (fun r => r.2)) := by
    funext cidr
    simp only [Function.comp]
    cases ParseCIDR cidr.data <;> rfl
  have e : ∀ (G : Option IPNet → Bool) (F : String → Option IPNet),
      allPrivate.any (G ∘ F) = (allPrivate.map F).any G := by
    intro G F
    generalize allPrivate = l
    induction l with
    | nil => rfl
    | cons x xs ih => simp only [List.any_cons, List.map_cons, ih, Function.comp]
  rw [h, e, allPrivate_nets]
  simp only [List.any_cons, List.any_nil, Bool.or_false, Bool.or_assoc]

theorem Contains_v4_mapped (n0 n1 n2 n3 m0 m1 m2 m3 a b c d : Nat) :
    (⟨[n0, n1, n2, n3], [m0, m1, m2, m3]⟩ : IPNet).Contains (v4InV6Prefix ++ [a, b, c, d]) =
      decide (n0 &&& m0 = a &&& m0 ∧ n1 &&& m1 = b &&& m1 ∧ n2 &&& m2 = c &&& m2 ∧
        n3 &&& m3 = d &&& m3) := by
  simp [IPNet.Contains, networkNumberAndMask, To4, v4InV6Prefix]
  rfl

theorem Contains_v6_mapped (a b c d : Nat) :
    (⟨[252, 0, 0, 0, 0, 0, 0, 0, 0, 0, 0, 0, 0, 0, 0, 0],
       [254, 0, 0, 0, 0, 0, 0, 0, 0, 0, 0, 0, 0, 0, 0, 0]⟩ : IPNet).Contains
        (v4InV6Prefix ++ [a, b, c, d]) = false ∧
    (⟨[254, 128, 0, 0, 0, 0, 0, 0, 0, 0, 0, 0, 0, 0, 0, 0],
       [255, 192, 0, 0, 0, 0, 0, 0, 0, 0, 0, 0, 0, 0, 0, 0]⟩ : IPNet).Contains
        (v4InV6Prefix ++ [a, b, c, d]) = false ∧
    (⟨[0, 0, 0, 0, 0, 0, 0, 0, 0, 0, 0, 0, 0, 0, 0, 1],
       [255, 255, 255, 255, 255, 255, 255, 255, 255, 255, 255, 255, 255, 255, 255,
        255]⟩ : IPNet).Contains (v4InV6Prefix ++ [a, b, c, d]) = false := by
  refine ⟨?_, ?_, ?_⟩ <;>
    simp [IPNet.Contains, networkNumberAndMask, To4, v4InV6Prefix]

theorem private_mapped (a b c d : Nat) (ha : a < 256) (hb : b < 256) :
    ((⟨[10, 0, 0, 0], [255, 0, 0, 0]⟩ : IPNet).Contains (v4InV6Prefix ++ [a, b, c, d]) ||
     (⟨[172, 16, 0, 0], [255, 240, 0, 0]⟩ : IPNet).Contains (v4InV6Prefix ++ [a, b, c, d]) ||
     (⟨[192, 168, 0, 0], [255, 255, 0, 0]⟩ : IPNet).Contains (v4InV6Prefix ++ [a, b, c, d]) ||
     (⟨[127, 0, 0, 0], [255, 0, 0, 0]⟩ : IPNet).Contains (v4InV6Prefix ++ [a, b, c, d]) ||
     (⟨[169, 254, 0, 0], [255, 255, 0, 0]⟩ : IPNet).Contains (v4InV6Prefix ++ [a, b, c, d])) =
    reservedV4 a b := by
  simp only [Contains_v4_mapped]
  have e10 : (10 : Nat) &&& 255 = 10 := by decide
  have e172 : (172 : Nat) &&& 255 = 172 := by decide
  have e192 : (192 : Nat) &&& 255 = 192 := by decide
  have e168 : (168 : Nat) &&& 255 = 168 := by decide
  have e127 : (127 : Nat) &&& 255 = 127 := by decide
  have e169 : (169 : Nat) &&& 255 = 169 := by decide
  have e254 : (254 : Nat) &&& 255 = 254 := by decide
  have e16 : (16 : Nat) &&& 240 = 16 := by decide
  have e0 : ∀ x : Nat, x &&& 0 = 0 := fun x => Nat.and_zero x
  have h240 : (16 = b &&& 240) ↔ (16 ≤ b ∧ b ≤ 31) := by
    rw [eq_comm]; exact land_240 b hb
  rw [Bool.eq_iff_iff]
  simp only [e10, e172, e192, e168, e127, e169, e254, e16, e0, land_255 a ha, land_255 b hb,
    reservedV4, Bool.or_eq_true, Bool.and_eq_true, decide_eq_true_eq, h240, and_true,
    Bool.decide_or, Bool.decide_and]
  constructor <;> intro h <;> omega

theorem list_of_length_16 (ip : List Nat) (hlen : ip.length = 16) :
    ∃ b0 b1 b2 b3 b4 b5 b6 b7 b8 b9 b10 b11 b12 b13 b14 b15 : Nat, ip = [b0, b1, b2, b3, b4, b5, b6,
        b7, b8, b9, b10, b11, b12, b13, b14, b15] := by
  rcases ip with _ | ⟨b0, _ | ⟨b1, _ | ⟨b2, _ | ⟨b3, _ | ⟨b4, _ | ⟨b5, _ | ⟨b6, _ | ⟨b7, _ | ⟨b8,
      _ | ⟨b9, _ | ⟨b10, _ | ⟨b11, _ | ⟨b12, _ | ⟨b13, _ | ⟨b14, _ | ⟨b15, _ | ⟨b16,
      tl⟩⟩⟩⟩⟩⟩⟩⟩⟩⟩⟩⟩⟩⟩⟩⟩⟩
  all_goals first
    | exact ⟨_, _, _, _, _, _, _, _, _, _, _, _, _, _, _, _, rfl⟩
    | (simp only [List.length_cons, List.length_nil] at hlen; omega)

theorem Contains_v4_unmapped (n0 n1 n2 n3 m0 m1 m2 m3 : Nat) (ip : List Nat)
    (hlen : ip.length = 16) (hip : ip.take 12 ≠ v4InV6Prefix) :
    (⟨[n0, n1, n2, n3], [m0, m1, m2, m3]⟩ : IPNet).Contains ip = false := by
  have h4 : To4 ip = none := by simp [To4, hlen, hip]
  have hn4 : To4 [n0, n1, n2, n3] = some [n0, n1, n2, n3] := by simp [To4]
  simp [IPNet.Contains, networkNumberAndMask, h4, hn4, hlen]

theorem Contains_v6_unmapped (nn m ip : List Nat) (hn : nn.length = 16) (hm : m.length = 16)
    (hnp : nn.take 12 ≠ v4InV6Prefix) (hlen : ip.length = 16)
    (hip : ip.take 12 ≠ v4InV6Prefix) :
    (⟨nn, m⟩ : IPNet).Contains ip =
      decide (List.zipWith Nat.land nn m = List.zipWith Nat.land ip m) := by
  have h4 : To4 ip = none := by simp [To4, hlen, hip]
  have hn4 : To4 nn = none := by simp [To4, hn, hnp]
  have hne : nn ≠ [] := by
    intro h0; rw [h0] at hn; cases hn
  simp [IPNet.Contains, networkNumberAndMask, h4, hn4, hn, hm, hlen, hne]

theorem private_unmapped (b0 b1 b2 b3 b4 b5 b6 b7 b8 b9 b10 b11 b12 b13 b14 b15 : Nat)
    (h0 : b0 < 256) (h1 : b1 < 256) (h2 : b2 < 256) (h3 : b3 < 256) (h4 : b4 < 256) (h5 : b5 < 256)
    (h6 : b6 < 256) (h7 : b7 < 256) (h8 : b8 < 256) (h9 : b9 < 256) (h10 : b10 < 256)
    (h11 : b11 < 256) (h12 : b12 < 256) (h13 : b13 < 256) (h14 : b14 < 256) (h15 : b15 < 256)
    (hip : ([b0, b1, b2, b3, b4, b5, b6, b7, b8, b9, b10, b11, b12, b13, b14,
        b15] : List Nat).take 12 ≠ v4InV6Prefix) :
    ((⟨[10, 0, 0, 0], [255, 0, 0, 0]⟩ : IPNet).Contains [b0, b1, b2, b3, b4, b5, b6, b7, b8, b9,
        b10, b11, b12, b13, b14, b15] ||
     (⟨[172, 16, 0, 0], [255, 240, 0, 0]⟩ : IPNet).Contains [b0, b1, b2, b3, b4, b5, b6, b7, b8, b9,
         b10, b11, b12, b13, b14, b15] ||
     (⟨[192, 168, 0, 0], [255, 255, 0, 0]⟩ : IPNet).Contains [b0, b1, b2, b3, b4, b5, b6, b7, b8,
         b9, b10, b11, b12, b13, b14, b15] ||
     (⟨[127, 0, 0, 0], [255, 0, 0, 0]⟩ : IPNet).Contains [b0, b1, b2, b3, b4, b5, b6, b7, b8, b9,
         b10, b11, b12, b13, b14, b15] ||
     (⟨[169, 254, 0, 0], [255, 255, 0, 0]⟩ : IPNet).Contains [b0, b1, b2, b3, b4, b5, b6, b7, b8,
         b9, b10, b11, b12, b13, b14, b15] ||
     (⟨[252, 0, 0, 0, 0, 0, 0, 0, 0, 0, 0, 0, 0, 0, 0, 0],
       [254, 0, 0, 0, 0, 0, 0, 0, 0, 0, 0, 0, 0, 0, 0, 0]⟩ : IPNet).Contains [b0, b1, b2, b3, b4,
           b5, b6, b7, b8, b9, b10, b11, b12, b13, b14, b15] ||
     (⟨[254, 128, 0, 0, 0, 0, 0, 0, 0, 0, 0, 0, 0, 0, 0, 0],
       [255, 192, 0, 0, 0, 0, 0, 0, 0, 0, 0, 0, 0, 0, 0, 0]⟩ : IPNet).Contains [b0, b1, b2, b3, b4,
           b5, b6, b7, b8, b9, b10, b11, b12, b13, b14, b15] ||
     (⟨[0, 0, 0, 0, 0, 0, 0, 0, 0, 0, 0, 0, 0, 0, 0, 1],
       [255, 255, 255, 255, 255, 255, 255, 255, 255, 255, 255, 255, 255, 255, 255,
        255]⟩ : IPNet).Contains [b0, b1, b2, b3, b4, b5, b6, b7, b8, b9, b10, b11, b12, b13, b14,
            b15]) =
    reservedV6 [b0, b1, b2, b3, b4, b5, b6, b7, b8, b9, b10, b11, b12, b13, b14, b15] := by
  have hlen : ([b0, b1, b2, b3, b4, b5, b6, b7, b8, b9, b10, b11, b12, b13, b14,
      b15] : List Nat).length = 16 := rfl
  rw [Contains_v4_unmapped _ _ _ _ _ _ _ _ _ hlen hip,
    Contains_v4_unmapped _ _ _ _ _ _ _ _ _ hlen hip,
    Contains_v4_unmapped _ _ _ _ _ _ _ _ _ hlen hip,
    Contains_v4_unmapped _ _ _ _ _ _ _ _ _ hlen hip,
    Contains_v4_unmapped _ _ _ _ _ _ _ _ _ hlen hip,
    Contains_v6_unmapped [252, 0, 0, 0, 0, 0, 0, 0, 0, 0, 0, 0, 0, 0, 0, 0]
      [254, 0, 0, 0, 0, 0, 0, 0, 0, 0, 0, 0, 0, 0, 0, 0] _ rfl rfl (by decide) hlen hip,
    Contains_v6_unmapped [254, 128, 0, 0, 0, 0, 0, 0, 0, 0, 0, 0, 0, 0, 0, 0]
      [255, 192, 0, 0, 0, 0, 0, 0, 0, 0, 0, 0, 0, 0, 0, 0] _ rfl rfl (by decide) hlen hip,
    Contains_v6_unmapped [0, 0, 0, 0, 0, 0, 0, 0, 0, 0, 0, 0, 0, 0, 0, 1]
      [255, 255, 255, 255, 255, 255, 255, 255, 255, 255, 255, 255, 255, 255, 255, 255] _
      rfl rfl (by decide) hlen hip]
  have l0 : ∀ x : Nat, Nat.land x 0 = 0 := fun x => Nat.and_zero x
  have l255 : ∀ x : Nat, x < 256 → Nat.land x 255 = x := fun x h => land_255 x h
  have c1 : Nat.land 252 254 = 252 := by decide
  have c2 : Nat.land 254 255 = 254 := by decide
  have c3 : Nat.land 128 192 = 128 := by decide
  have c4 : Nat.land 0 255 = 0 := by decide
  have c5 : Nat.land 1 255 = 1 := by decide
  have h254 : (252 = Nat.land b0 254) ↔ b0 / 2 = 126 := by
    rw [eq_comm]; exact land_254 b0 h0
  have h192 : (128 = Nat.land b1 192) ↔ b1 / 64 = 2 := by
    rw [eq_comm]; exact land_192 b1 h1
  have hr : (List.replicate 15 0 ++ [1] : List Nat) =
      [0, 0, 0, 0, 0, 0, 0, 0, 0, 0, 0, 0, 0, 0, 0, 1] := by decide
  rw [Bool.eq_iff_iff]
  simp only [List.zipWith_cons_cons, List.zipWith_nil_right, Bool.false_or, l0, c1, c2, c3,
    c4, c5, l255 b0 h0, l255 b1 h1, l255 b2 h2, l255 b3 h3, l255 b4 h4, l255 b5 h5, l255 b6 h6,
        l255 b7 h7, l255 b8 h8, l255 b9 h9, l255 b10 h10, l255 b11 h11, l255 b12 h12, l255 b13 h13,
        l255 b14 h14, l255 b15 h15, reservedV6, hr,
    Bool.or_eq_true, decide_eq_true_eq, List.cons.injEq, and_true, true_and, h254, h192,
    Nat.reduceDiv]
  constructor <;> intro h <;> omega

/-- On a parsed address the range test of `IsPrivateIP` is membership in the reserved
ranges. -/
theorem private_any_eq_inReservedRange (ip : List Nat) (hlen : ip.length = 16)
    (hb : ∀ x ∈ ip, x < 256) :
    (allPrivate.any (fun cidr =>
      match ParseCIDR cidr.data with
      | some (_, subnet) => subnet.Contains ip
      | none => false)) = inReservedRange ip := by
  rw [private_any_eq]
  obtain ⟨b0, b1, b2, b3, b4, b5, b6, b7, b8, b9, b10, b11, b12, b13, b14, b15,
      rfl⟩ := list_of_length_16 ip hlen
  by_cases hm : ([b0, b1, b2, b3, b4, b5, b6, b7, b8, b9, b10, b11, b12, b13, b14,
      b15] : List Nat).take 12 = v4InV6Prefix
  · have hm' := hm
    simp only [List.take_succ_cons, List.take_zero, v4InV6Prefix, List.cons.injEq,
      and_true] at hm'
    obtain ⟨rfl, rfl, rfl, rfl, rfl, rfl, rfl, rfl, rfl, rfl, rfl, rfl⟩ := hm'
    have hshape : ([0, 0, 0, 0, 0, 0, 0, 0, 0, 0, 255, 255, b12, b13, b14, b15] : List Nat) =
        v4InV6Prefix ++ [b12, b13, b14, b15] := rfl
    have hres : inReservedRange [0, 0, 0, 0, 0, 0, 0, 0, 0, 0, 255, 255, b12, b13, b14, b15] =
        reservedV4 b12 b13 := by
      unfold inReservedRange
      rw [if_pos hm]
      rfl
    rw [hres, hshape, (Contains_v6_mapped b12 b13 b14 b15).1,
      (Contains_v6_mapped b12 b13 b14 b15).2.1, (Contains_v6_mapped b12 b13 b14 b15).2.2,
      Bool.or_false, Bool.or_false, Bool.or_false]
    exact private_mapped b12 b13 b14 b15 (hb b12 (by simp)) (hb b13 (by simp))
  · have hres : inReservedRange [b0, b1, b2, b3, b4, b5, b6, b7, b8, b9, b10, b11, b12, b13, b14,
      b15] = reservedV6 [b0, b1, b2, b3, b4, b5, b6, b7, b8, b9, b10, b11, b12, b13, b14, b15] := by
      unfold inReservedRange
      rw [if_neg hm]
    rw [hres]
    exact private_unmapped b0 b1 b2 b3 b4 b5 b6 b7 b8 b9 b10 b11 b12 b13 b14 b15 (hb b0 (by simp))
        (hb b1 (by simp)) (hb b2 (by simp)) (hb b3 (by simp)) (hb b4 (by simp)) (hb b5 (by simp))
        (hb b6 (by simp)) (hb b7 (by simp)) (hb b8 (by simp)) (hb b9 (by simp)) (hb b10 (by simp))
        (hb b11 (by simp)) (hb b12 (by simp)) (hb b13 (by simp)) (hb b14 (by simp)) (hb b15
        (by simp)) hm

/-- The function `IsPrivateIP` parses the string and tests the reserved ranges. -/
theorem IsPrivateIP_eq (s : String) :
    IsPrivateIP s =
      match ParseIP s.data with
      | none => false
      | some ip => inReservedRange ip := by
  unfold IsPrivateIP
  cases h : ParseIP s.data with
  | none => rfl
  | some ip =>
      obtain ⟨hlen, hb⟩ := ParseIP_bytes s.data ip h
      exact private_any_eq_inReservedRange ip hlen hb

/-- C13: `IsPrivateIP s` is true exactly when `s` parses as an address that lies in one
of the reserved ranges 10/8, 172.16/12, 192.168/16, 127/8, 169.254/16, fc00::/7,
fe80::/10, ::1/128; for an IPv4 address with octets `a.b.c.d` that is `a = 10`, or
`a = 172` and `16 ≤ b ≤ 31`, or `a = 192` and `b = 168`, or `a = 127`, or `a = 169` and
`b = 254`; a string that does not parse gives false, and the eight range constants
all parse, so the function never fails. -/
theorem IsPrivateIP_iff_reserved (s : String) :
    (IsPrivateIP s = true ↔
      ∃ ip, ParseIP s.data = some ip ∧ inReservedRange ip = true) ∧
    (∀ a b c d : Nat, ParseIP s.data = some (v4InV6Prefix ++ [a, b, c, d]) →
      (IsPrivateIP s = true ↔
        (a = 10 ∨ (a = 172 ∧ 16 ≤ b ∧ b ≤ 31) ∨ (a = 192 ∧ b = 168) ∨ a = 127 ∨
          (a = 169 ∧ b = 254)))) ∧
    (ParseIP s.data = none → IsPrivateIP s = false) ∧
    (∀ cidr ∈ allPrivate, (ParseCIDR cidr.data).isSome = true) := by
  refine ⟨?_, ?_, ?_, by decide⟩
  · rw [IsPrivateIP_eq]
    cases h : ParseIP s.data with
    | none => simp
    | some ip => simp
  · intro a b c d h
    rw [IsPrivateIP_eq, h]
    have : inReservedRange (v4InV6Prefix ++ [a, b, c, d]) = reservedV4 a b := rfl
    simp only [this, reservedV4, decide_eq_true_eq]
  · intro h
    rw [IsPrivateIP_eq, h]

/-- The boundaries of the reserved ranges on concrete strings. -/
theorem IsPrivateIP_boundaries :
    IsPrivateIP "10.0.0.0" = true ∧ IsPrivateIP "10.255.255.255" = true ∧
    IsPrivateIP "9.255.255.255" = false ∧ IsPrivateIP "11.0.0.0" = false ∧
    IsPrivateIP "172.15.255.255" = false ∧ IsPrivateIP "172.16.0.0" = true ∧
    IsPrivateIP "172.31.255.255" = true ∧ IsPrivateIP "172.32.0.0" = false ∧
    IsPrivateIP "192.168.0.0" = true ∧ IsPrivateIP "192.169.0.0" = false ∧
    IsPrivateIP "127.0.0.1" = true ∧ IsPrivateIP "169.254.1.1" = true ∧
    IsPrivateIP "169.253.1.1" = false ∧
    IsPrivateIP "fc00::" = true ∧ IsPrivateIP "fdff::1" = true ∧
    IsPrivateIP "fbff::1" = false ∧ IsPrivateIP "fe00::1" = false ∧
    IsPrivateIP "fe80::1" = true ∧ IsPrivateIP "febf::1" = true ∧
    IsPrivateIP "fec0::1" = false ∧ IsPrivateIP "::1" = true ∧ IsPrivateIP "::2" = false ∧
    IsPrivateIP "not-an-ip" = false ∧ IsPrivateIP "" = false ∧
    IsPrivateIP " 10.0.0.1" = false := by
  decide

/-! ### The sweep and the readers -/

/-- C22: a sweep pass at time `t` is invisible to every read at a time `t' ≥ t`: `Get`
returns the same on the swept cache as on the cache before the pass, and an entry
that the pass removed was one that `Get` already did not return. -/
theorem sweep_invisible_to_Get (c : MemoryCache) (t t' : Int) (k : String) (h : t ≤ t') :
    (c.cleanupSweep t).Get k t' = c.Get k t' ∧
    (∀ item, c.items.lookup k = some item → (c.cleanupSweep t).items.lookup k = none →
      c.Get k t' = none) := by
  rw [cleanupSweep_eq_cleanupPass]
  have key : ∀ item, c.items.lookup k = some item →
      (c.cleanupPass t).items.lookup k = none → item.Expiration < t := by
    intro item hl hnone
    by_contra hlive
    have := (cleanupPass_lookup_iff c t k item).mpr ⟨hl, hlive⟩
    rw [hnone] at this
    cases this
  constructor
  · cases hl : c.items.lookup k with
    | none =>
        have hnone : (c.cleanupPass t).items.lookup k = none := by
          cases h1 : (c.cleanupPass t).items.lookup k with
          | none => rfl
          | some item1 =>
              have := ((cleanupPass_lookup_iff c t k item1).mp h1).1
              rw [hl] at this
              cases this
        simp [MemoryCache.Get, hl, hnone]
    | some item =>
        by_cases hexp : item.Expiration < t
        · have hnone : (c.cleanupPass t).items.lookup k = none := by
            cases h1 : (c.cleanupPass t).items.lookup k with
            | none => rfl
            | some item1 =>
                have h2 := (cleanupPass_lookup_iff c t k item1).mp h1
                rw [hl] at h2
                simp only [Option.some.injEq] at h2
                rw [← h2.1] at h2
                exact absurd hexp h2.2
          have hgt : t' > item.Expiration := by omega
          simp [MemoryCache.Get, hl, hnone, hgt]
        · have hsome := (cleanupPass_lookup_iff c t k item).mpr ⟨hl, hexp⟩
          simp [MemoryCache.Get, hl, hsome]
  · intro item hl hnone
    have hexp := key item hl hnone
    exact (Get_eq_none_iff c k t').mpr (Or.inr ⟨item, hl, by omega⟩)

/-- Instance of `sweep_invisible_to_Get`: one entry expired at the sweep, one live. -/
theorem sweep_invisible_to_Get_witness :
    ((((NewMemoryCache 10).Set "8.8.8.8" sampleRecord 0).Set "1.1.1.1" sampleRecord 5
        ).cleanupSweep 12).Get "8.8.8.8" 12 =
      (((NewMemoryCache 10).Set "8.8.8.8" sampleRecord 0).Set "1.1.1.1" sampleRecord 5
        ).Get "8.8.8.8" 12 ∧
    ((((NewMemoryCache 10).Set "8.8.8.8" sampleRecord 0).Set "1.1.1.1" sampleRecord 5
        ).cleanupSweep 12).Get "1.1.1.1" 13 =
      (((NewMemoryCache 10).Set "8.8.8.8" sampleRecord 0).Set "1.1.1.1" sampleRecord 5
        ).Get "1.1.1.1" 13 :=
  ⟨(sweep_invisible_to_Get _ 12 12 "8.8.8.8" (by decide)).1,
   (sweep_invisible_to_Get _ 12 13 "1.1.1.1" (by decide)).1⟩

/-! ### The HTTP handlers -/

/-- C21 (as stated) fails: a failure of the service with code `ErrCodeInternalError`
(here: the provider has been closed) is answered with status 400, not with a 5xx
status. -/
theorem HTTPHandler_status_counterexample :
    ¬ ∀ (s : IPService IP2RegionProvider) (param : String) (tGet tSet : Int) (err : GoError),
        String.mk (TrimSpace param.data) ≠ "" →
        (QueryIP ip2regionProvider s (String.mk (TrimSpace param.data)) tGet tSet).result =
          .error err →
        GetCode err = .ErrCodeInternalError →
        500 ≤ (HTTPHandler.QueryIP ip2regionProvider s param tGet tSet).1.status := by
  intro h
  have h1 := h closedService "8.8.8.8" 0 0
    (NewWithError .ErrCodeInternalError "查询IP信息失败" (.errorf "provider not initialized"))
    (by decide) (by rfl) (by rfl)
  have h2 : (HTTPHandler.QueryIP ip2regionProvider closedService "8.8.8.8" 0 0).1.status =
      400 := by rfl
  rw [h2] at h1
  omega

/-- C21 (amended): the HTTP handlers that call the service (`QueryIP`, `BatchQueryIP`
and `GetClientIP`) answer every failure of the service with status 400, whatever its
code, the code and the message of the failure being carried in the body; without a
failure they answer 200 with the record or the records. The failures that `QueryIP`
and `BatchQueryIP` detect themselves (empty address, unreadable request) are answered
with 400 and the code of `ErrCodeInvalidRequest`. -/
theorem HTTPHandler_status {σ : Type} (P : QueryProvider σ) (s : IPService σ)
    (param clientIP : String) (tGet tSet : Int) (ips : List String)
    (clock : Nat → Int × Int) :
    (String.mk (TrimSpace param.data) = "" →
      (HTTPHandler.QueryIP P s param tGet tSet).1.status = 400 ∧
      ∃ msg, (HTTPHandler.QueryIP P s param tGet tSet).1.body = .failure 1004 msg) ∧
    (String.mk (TrimSpace param.data) ≠ "" →
      (∀ err, (QueryIP P s (String.mk (TrimSpace param.data)) tGet tSet).result =
          .error err →
        (HTTPHandler.QueryIP P s param tGet tSet).1.status = 400 ∧
        (HTTPHandler.QueryIP P s param tGet tSet).1.body =
          .failure (GetCode err).toNat (GetMessage err)) ∧
      (∀ info, (QueryIP P s (String.mk (TrimSpace param.data)) tGet tSet).result =
          .ok info →
        (HTTPHandler.QueryIP P s param tGet tSet).1.status = 200 ∧
        (HTTPHandler.QueryIP P s param tGet tSet).1.body = .record 0 info)) ∧
    ((HTTPHandler.BatchQueryIP P s none clock).1.status = 400 ∧
      ∃ msg, (HTTPHandler.BatchQueryIP P s none clock).1.body = .failure 1004 msg) ∧
    (∀ err, (BatchQueryIP P s ips clock).result = .error err →
      (HTTPHandler.BatchQueryIP P s (some ips) clock).1.status = 400 ∧
      (HTTPHandler.BatchQueryIP P s (some ips) clock).1.body =
        .failure (GetCode err).toNat (GetMessage err)) ∧
    (∀ infos, (BatchQueryIP P s ips clock).result = .ok infos →
      (HTTPHandler.BatchQueryIP P s (some ips) clock).1.status = 200 ∧
      (HTTPHandler.BatchQueryIP P s (some ips) clock).1.body = .records 0 infos) ∧
    (∀ err, (QueryIP P s clientIP tGet tSet).result = .error err →
      (HTTPHandler.GetClientIP P s clientIP tGet tSet).1.status = 400 ∧
      (HTTPHandler.GetClientIP P s clientIP tGet tSet).1.body =
        .failure (GetCode err).toNat (GetMessage err)) ∧
    (∀ info, (QueryIP P s clientIP tGet tSet).result = .ok info →
      (HTTPHandler.GetClientIP P s clientIP tGet tSet).1.status = 200 ∧
      (HTTPHandler.GetClientIP P s clientIP tGet tSet).1.body = .record 0 info) := by
  refine ⟨?_, ?_, ⟨rfl, _, rfl⟩, ?_, ?_, ?_, ?_⟩
  · intro hempty
    simp only [HTTPHandler.QueryIP, hempty, if_true]
    exact ⟨rfl, _, rfl⟩
  · intro hne
    constructor
    · intro err herr
      simp only [HTTPHandler.QueryIP, hne, if_false, herr]
      constructor <;> first | rfl | trivial
    · intro info hinfo
      simp only [HTTPHandler.QueryIP, hne, if_false, hinfo]
      constructor <;> first | rfl | trivial
  · intro err herr
    simp only [HTTPHandler.BatchQueryIP, herr]
    constructor <;> first | rfl | trivial
  · intro infos hinfos
    simp only [HTTPHandler.BatchQueryIP, hinfos]
    constructor <;> first | rfl | trivial
  · intro err herr
    simp only [HTTPHandler.GetClientIP, herr]
    constructor <;> first | rfl | trivial
  · intro info hinfo
    simp only [HTTPHandler.GetClientIP, hinfo]
    constructor <;> first | rfl | trivial

/-- The handlers on a service whose provider has been closed: the single-address
handlers answer the internal failure with status 400 and the code 1003 in the body;
the batch handler, for which the failure of an element is a record, answers 200. -/
theorem HTTPHandler_closed_provider :
    (HTTPHandler.QueryIP ip2regionProvider closedService "8.8.8.8" 0 0).1.status = 400 ∧
    (HTTPHandler.GetClientIP ip2regionProvider closedService "8.8.8.8" 0 0).1.status = 400 ∧
    (HTTPHandler.BatchQueryIP ip2regionProvider closedService (some ["8.8.8.8"])
      (fun _ => (0, 0))).1.status = 200 ∧
    (GetCode (NewWithError .ErrCodeInternalError "查询IP信息失败"
      (.errorf "provider not initialized"))).toNat = 1003 :=
  ⟨by rfl, by rfl, by rfl, by rfl⟩

/-! ### Validation against classification -/

/-- C23 (what the code does): `ValidateIP` trims white space and `IsPrivateIP` does not,
so a reserved address with a leading or trailing space is accepted, is not classified
as reserved, and counts as public; the provider then looks it up in the database
instead of answering with the local-network record. -/
theorem trimmed_validation_untrimmed_classification :
    ValidateIP " 10.0.0.1" = true ∧ IsPrivateIP "10.0.0.1" = true ∧
    IsPrivateIP " 10.0.0.1" = false ∧ IsPublicIP " 10.0.0.1" = true ∧
    ValidateIP "192.168.1.1 " = true ∧ IsPrivateIP "192.168.1.1" = true ∧
    IsPrivateIP "192.168.1.1 " = false ∧ IsPublicIP "192.168.1.1 " = true ∧
    (QueryIP ip2regionProvider sampleService " 10.0.0.1" 0 0).calls = [" 10.0.0.1"] ∧
    (QueryIP ip2regionProvider sampleService " 10.0.0.1" 0 0).result =
      .ok { IP := " 10.0.0.1", IsValid := false, ErrorMessage := "IP查询失败: no region" } :=
  ⟨by decide, by decide, by decide, by decide, by decide, by decide, by decide, by decide,
   by rfl, by rfl⟩

theorem dtoiLoop_stops :
    ∀ (s : List Char) (n i n1 i1 : Nat) (ok : Bool),
      dtoiLoop s n i = (n1, i1, ok) → (∃ c ∈ s, decVal c = none) → i1 < i + s.length := by
  intro s
  induction s with
  | nil => intro n i n1 i1 ok _ hex; obtain ⟨c, hc, _⟩ := hex; cases hc
  | cons c rest ih =>
      intro n i n1 i1 ok h hex
      unfold dtoiLoop at h
      cases hd : decVal c with
      | none =>
          rw [hd] at h
          simp only [Prod.mk.injEq] at h
          simp only [List.length_cons]
          omega
      | some d =>
          rw [hd] at h
          simp only at h
          split at h
          · simp only [Prod.mk.injEq] at h
            simp only [List.length_cons]
            omega
          · have hex' : ∃ c ∈ rest, decVal c = none := by
              obtain ⟨x, hx, hxd⟩ := hex
              rcases List.mem_cons.mp hx with rfl | hx
              · rw [hd] at hxd; cases hxd
              · exact ⟨x, hx, hxd⟩
            have := ih _ _ _ _ _ h hex'
            simp only [List.length_cons]
            omega

theorem mask_after_slash (ip x : List Char) (h : '/' ∈ ip) (hx : '/' ∈ x) :
    '/' ∈ ((ip ++ x).dropWhile (fun c => decide (c ≠ '/'))).drop 1 := by
  induction ip with
  | nil => cases h
  | cons c tl ih =>
      by_cases hc : c = '/'
      · subst hc
        simp only [List.cons_append, List.dropWhile_cons, ne_eq, not_true_eq_false,
          decide_False, Bool.false_eq_true, if_false, List.drop_succ_cons, List.drop_zero]
        exact List.mem_append_right _ hx
      · have htl : '/' ∈ tl := by
          rcases List.mem_cons.mp h with h1 | h1
          · exact absurd h1.symm hc
          · exact h1
        simp only [List.cons_append, List.dropWhile_cons, ne_eq, hc, not_false_eq_true,
          decide_True, if_true]
        exact ih htl

theorem addr_before_slash (ip : List Char) (h : '/' ∉ ip) :
    (ip ++ "/128".data).takeWhile (fun c => decide (c ≠ '/')) = ip ∧
    ((ip ++ "/128".data).dropWhile (fun c => decide (c ≠ '/'))).drop 1 = "128".data := by
  induction ip with
  | nil => exact ⟨by decide, by decide⟩
  | cons c tl ih =>
      have hc : c ≠ '/' := fun hc => h (hc ▸ List.mem_cons_self _ _)
      have htl : '/' ∉ tl := fun hm => h (List.mem_cons_of_mem _ hm)
      obtain ⟨h1, h2⟩ := ih htl
      constructor
      · simp only [List.cons_append, List.takeWhile_cons, ne_eq, hc, not_false_eq_true,
          decide_True, if_true, List.cons.injEq, true_and]
        exact h1
      · simp only [List.cons_append, List.dropWhile_cons, ne_eq, hc, not_false_eq_true,
          decide_True, if_true]
        exact h2

/-- The second test of `ValidateIP` never succeeds: a string that `net.ParseIP` rejects
is not made parsable by appending `/128`. -/
theorem ParseCIDR_append_128 (ip : List Char) (h : ParseIP ip = none) :
    ParseCIDR (ip ++ "/128".data) = none := by
  unfold ParseCIDR
  simp only
  split
  · rfl
  · by_cases hs : '/' ∈ ip
    · -- the mask still contains a slash
      have hmask := mask_after_slash ip "/128".data hs (by decide)
      generalize ((ip ++ "/128".data).dropWhile (fun c => decide (c ≠ '/'))).drop 1 = mask
        at hmask
      cases hpa : ParseAddr ((ip ++ "/128".data).takeWhile (fun c => decide (c ≠ '/'))) with
      | none => rfl
      | some a =>
          simp only
          split
          · rfl
          · have hstop : ∀ n i ok, dtoi mask = (n, i, ok) → ok = true → i ≠ mask.length := by
              intro n i ok hd hok
              unfold dtoi at hd
              cases hl : dtoiLoop mask 0 0 with
              | mk n0 r =>
                  obtain ⟨i0, ok0⟩ := r
                  rw [hl] at hd
                  simp only at hd
                  have hlt := dtoiLoop_stops mask 0 0 n0 i0 ok0 hl ⟨'/', hmask, by decide⟩
                  split at hd
                  · split at hd
                    · simp only [Prod.mk.injEq] at hd
                      rw [← hd.2.2] at hok
                      cases hok
                    · simp only [Prod.mk.injEq] at hd
                      omega
                  · simp only [Prod.mk.injEq] at hd
                    omega
            cases hdt : dtoi mask with
            | mk n r =>
                obtain ⟨i, ok⟩ := r
                simp only
                cases ok with
                | false => simp
                | true =>
                    have := hstop n i true hdt rfl
                    simp [this]
    · obtain ⟨h1, h2⟩ := addr_before_slash ip hs
      rw [h1]
      unfold ParseIP at h
      cases hpa : ParseAddr ip with
      | none => rfl
      | some a =>
          rw [hpa] at h
          simp only at h
          split at h
          · rename_i hz
            simp only
            rw [if_pos hz]
          · cases h

/-- The function `ValidateIP` accepts exactly the strings whose trimmed form parses. -/
theorem ValidateIP_eq (s : String) :
    ValidateIP s = (ParseIP (TrimSpace s.data)).isSome := by
  unfold ValidateIP
  simp only
  by_cases he : TrimSpace s.data = []
  · rw [if_pos he, he]
    rfl
  · rw [if_neg he]
    cases hp : ParseIP (TrimSpace s.data) with
    | some ip => simp
    | none =>
        simp only [Option.isSome_none, Bool.false_eq_true, if_false,
          ParseCIDR_append_128 _ hp]
        split <;> rfl

/-- For a string without surrounding white space validation and classification do
agree: it is accepted exactly when it parses, an accepted string is classified as
reserved exactly when the address it denotes lies in a reserved range, and it is
public exactly when it parses to an address outside the reserved ranges. -/
theorem classification_agrees_when_trimmed (s : String) (ht : TrimSpace s.data = s.data) :
    ValidateIP s = (ParseIP s.data).isSome ∧
    (ValidateIP s = true →
      (IsPrivateIP s = true ↔
        ∃ ip, ParseIP (TrimSpace s.data) = some ip ∧ inReservedRange ip = true)) ∧
    (IsPublicIP s = true ↔ ∃ ip, ParseIP s.data = some ip ∧ inReservedRange ip = false) := by
  have hv : ValidateIP s = (ParseIP s.data).isSome := by rw [ValidateIP_eq, ht]
  refine ⟨hv, ?_, ?_⟩
  · intro _
    rw [ht, IsPrivateIP_eq]
    cases hp : ParseIP s.data with
    | none => simp
    | some ip => simp
  · unfold IsPublicIP
    rw [hv, IsPrivateIP_eq]
    cases hp : ParseIP s.data with
    | none => simp
    | some ip => simp

/-! ### Records of the database provider -/

theorem regionParts_getElem (info : String) (i : Nat) (hi : i < 5) :
    (regionParts info)[i]? =
      some (fieldOrEmpty ((splitSep '|' info.data).map String.mk) i) := by
  unfold regionParts fieldOrEmpty
  simp only
  generalize (splitSep '|' info.data).map String.mk = fields
  by_cases hlt : i < fields.length
  · rw [List.getElem?_append_left (by simpa using hlt)]
    simp [List.getElem?_map, List.getElem?_eq_getElem hlt]
  · have hge : fields.length ≤ i := by omega
    rw [List.getElem?_append_right (by simpa using hge)]
    have hnone : fields[i]? = none := List.getElem?_eq_none hge
    rw [hnone]
    simp only [List.length_map]
    rw [List.getElem?_replicate]
    rw [if_pos (by omega)]

theorem getCountryCode_unknown (c : String)
    (h : c ∉ ["中国", "美国", "日本", "韩国", "德国", "英国", "法国", "加拿大"]) :
    getCountryCode c = "未知" := by
  simp only [List.mem_cons, List.mem_singleton, List.not_mem_nil, or_false, not_or] at h
  obtain ⟨h1, h2, h3, h4, h5, h6, h7, h8⟩ := h
  simp [getCountryCode, h1, h2, h3, h4, h5, h6, h7, h8]

/-- C24: for every region string that the database returns for an accepted address
outside the reserved ranges, `Query` of the initialized `IP2RegionProvider` finds the
fields 0, 2, 3 and 4 in range (the field list has at least five entries) and returns
the valid record for the queried address whose country, region, city and ISP are
those fields, a field `0` or a missing field being the empty string; the country code
is the code of one of the eight known country names and `未知` for any other value. -/
theorem IP2RegionProvider_Query_public (p : IP2RegionProvider) (ip info : String)
    (hi : p.initialized = true) (hv : ValidateIP ip = true) (hp : IsPrivateIP ip = false)
    (hs : p.db.SearchByStr ip = .ok info) :
    5 ≤ (regionParts info).length ∧
    (∀ i, i < 5 → (regionParts info)[i]? =
      some (fieldOrEmpty ((splitSep '|' info.data).map String.mk) i)) ∧
    p.Query ip =
      (.ok { IP := ip,
             Country := fieldOrEmpty ((splitSep '|' info.data).map String.mk) 0,
             CountryCode :=
               getCountryCode (fieldOrEmpty ((splitSep '|' info.data).map String.mk) 0),
             Region := fieldOrEmpty ((splitSep '|' info.data).map String.mk) 2,
             City := fieldOrEmpty ((splitSep '|' info.data).map String.mk) 3,
             District := "",
             ISP := fieldOrEmpty ((splitSep '|' info.data).map String.mk) 4,
             Latitude := 0, Longitude := 0, Timezone := "", PostalCode := "",
             IsValid := true, ErrorMessage := "" }, p) ∧
    (getCountryCode "中国" = "CN" ∧ getCountryCode "美国" = "US" ∧
      getCountryCode "日本" = "JP" ∧ getCountryCode "韩国" = "KR" ∧
      getCountryCode "德国" = "DE" ∧ getCountryCode "英国" = "GB" ∧
      getCountryCode "法国" = "FR" ∧ getCountryCode "加拿大" = "CA") ∧
    (∀ c, c ∉ ["中国", "美国", "日本", "韩国", "德国", "英国", "法国", "加拿大"] →
      getCountryCode c = "未知") := by
  have hget : ∀ i, i < 5 → (regionParts info).getD i "" =
      fieldOrEmpty ((splitSep '|' info.data).map String.mk) i := by
    intro i hi5
    rw [List.getD_eq_getElem?_getD, regionParts_getElem info i hi5]
    rfl
  refine ⟨?_, fun i hi5 => regionParts_getElem info i hi5, ?_,
    ⟨by decide, by decide, by decide, by decide, by decide, by decide, by decide, by decide⟩,
    getCountryCode_unknown⟩
  · unfold regionParts
    simp only [List.length_append, List.length_replicate, List.length_map]
    omega
  · simp only [IP2RegionProvider.Query, hi, hv, hp, hs, hget 0 (by omega), hget 2 (by omega),
      hget 3 (by omega), hget 4 (by omega)]
    simp

/-- Instance of `IP2RegionProvider_Query_public`: the region string of `8.8.8.8` in the
sample database, with two fields `0`. -/
theorem IP2RegionProvider_Query_public_witness :
    IP2RegionProvider.Query sampleService.provider "8.8.8.8" =
      (.ok { IP := "8.8.8.8", Country := "美国", CountryCode := "US",
             Region := "加利福尼亚", City := "", ISP := "谷歌", IsValid := true },
       sampleService.provider) :=
  (IP2RegionProvider_Query_public sampleService.provider "8.8.8.8" "美国|0|加利福尼亚|0|谷歌"
    (by rfl) (by decide) (by decide) (by rfl)).2.2.1

end Goip
